import Mathlib


/-!
Shallow embedding of the INMET climate-data transformation pipeline
(`src/transforms/run_processing_silver.py` and
`src/transforms/run_transformation_gold.py`).

Tables are modelled as a list of column names plus a list of rows, where a
row is an association list from column names to cells.  A cell is either a
string, a rational number (standing for the source's finite floats), a
timestamp, a calendar date, or the absent value (pandas `NaN`/`NaT`/`None`).
-/

/-- A date-time with minute resolution, used for the parsed UTC instants and
their timezone-converted counterparts. -/
structure DT where
  year : Nat
  month : Nat
  day : Nat
  hour : Nat
  minute : Nat
deriving DecidableEq, Repr

/-- A calendar date (the `.dt.date` projection of a timestamp). -/
structure Date where
  year : Nat
  month : Nat
  day : Nat
deriving DecidableEq, Repr

/-- One cell of a table: a string, a finite number, a timestamp, a date, or
absent (`NaN` / `NaT` / `None`). -/
inductive Cell where
  | str (s : String)
  | num (q : ℚ)
  | time (t : DT)
  | date (d : Date)
  | na
deriving DecidableEq, Repr

/-- A row: an association list from column names to cells. -/
abbrev Row := List (String × Cell)

/-- A table: the column names in order, and the rows. -/
structure Table where
  cols : List String
  rows : List Row
deriving DecidableEq, Repr

deriving instance DecidableEq for Except

/-- Look up a column's cell in a row (first matching entry). -/
def rowGet : Row → String → Option Cell
  | [], _ => none
  | (k, v) :: rest, c => if k = c then some v else rowGet rest c

/-- Look up a column's cell in a row, with absent default. -/
def rowGetD (r : Row) (c : String) : Cell :=
  (rowGet r c).getD Cell.na

/-- Assign a column's cell in a row: replace the entry if the column exists,
append it otherwise (pandas `df[c] = ...` column assignment, rowwise). -/
def rowSet (r : Row) (c : String) (v : Cell) : Row :=
  if rowGet r c = none then r ++ [(c, v)]
  else r.map (fun p => if p.1 = c then (c, v) else p)

/-- Drop the entries of the given columns from a row. -/
def rowDrop (r : Row) (bad : List String) : Row :=
  r.filter (fun p => decide (p.1 ∉ bad))

/-- Project a row onto the given columns, in the given order, materialising
absent cells (pandas `df[order]`). -/
def projectRow (r : Row) (order : List String) : Row :=
  order.map (fun c => (c, rowGetD r c))

/-- Append a column name if it is not already present. -/
def addCol (cols : List String) (c : String) : List String :=
  if c ∈ cols then cols else cols ++ [c]

/-- Apply a cell transformation to one column of a table, only if the column
is present (the source guards column operations with `if col in df.columns`). -/
def mapColIf (t : Table) (c : String) (f : Cell → Cell) : Table :=
  if c ∈ t.cols then
    ⟨t.cols, t.rows.map (fun r => rowSet r c (f (rowGetD r c)))⟩
  else t

/-- Assign a (possibly new) column computed from each whole row
(pandas `df[c] = <expression of df>`). -/
def mapColNew (t : Table) (c : String) (f : Row → Cell) : Table :=
  ⟨addCol t.cols c, t.rows.map (fun r => rowSet r c (f r))⟩

/-- Add a column holding `None` in every row (`df[col] = None`). -/
def addNullCol (t : Table) (c : String) : Table :=
  ⟨addCol t.cols c, t.rows.map (fun r => rowSet r c Cell.na)⟩

/- ### String utilities -/

/-- Remove every occurrence of `" UTC"`, left to right (the semantics of
`Series.str.replace(' UTC', '', regex=False)`). -/
def stripUTC : List Char → List Char
  | ' ' :: 'U' :: 'T' :: 'C' :: rest => stripUTC rest
  | c :: rest => c :: stripUTC rest
  | [] => []

/-- Left-pad with `'0'` up to length `n` (`Series.str.zfill(n)` on the
digit strings this pipeline feeds it). -/
def zfillL (n : Nat) (l : List Char) : List Char :=
  List.replicate (n - l.length) '0' ++ l

/-- Split a character list on a separator character. -/
def splitChar (sep : Char) : List Char → List (List Char)
  | [] => [[]]
  | c :: rest =>
    match splitChar sep rest with
    | [] => [[c]]
    | h :: t => if c = sep then [] :: h :: t else (c :: h) :: t

/-- Numeric value of a digit string. -/
def digitsToNat (l : List Char) : Nat :=
  l.foldl (fun n c => 10 * n + (c.toNat - 48)) 0

/-- Whether `pat` occurs as a contiguous substring of `hay`
(Python's `pat in hay`). -/
def strContains (hay pat : String) : Bool :=
  decide (pat.data <:+: hay.data)

/-- The string Python's `str()` produces for a cell (`Series.astype(str)`).
Floats with integral value print with a trailing `.0`; absent prints `nan`. -/
def pyStr (c : Cell) : String :=
  match c with
  | Cell.str s => s
  | Cell.num q => if q.den = 1 then toString q.num ++ ".0" else toString q
  | Cell.time t => toString t.year ++ "-" ++ toString t.month ++ "-" ++ toString t.day
  | Cell.date d => toString d.year ++ "-" ++ toString d.month ++ "-" ++ toString d.day
  | Cell.na => "nan"

/- ### Calendar arithmetic -/

/-- Gregorian leap-year rule. -/
def isLeap (y : Nat) : Bool :=
  y % 4 = 0 && (y % 100 ≠ 0 || y % 400 = 0)

/-- Days in a month of the Gregorian calendar. -/
def daysInMonth (y m : Nat) : Nat :=
  if m = 2 then (if isLeap y then 29 else 28)
  else if m = 4 ∨ m = 6 ∨ m = 9 ∨ m = 11 then 30
  else 31

/-- The calendar date immediately before the date of `d`. -/
def prevDay (y m d : Nat) : Nat × Nat × Nat :=
  if d > 1 then (y, m, d - 1)
  else if m > 1 then (y, m - 1, daysInMonth y (m - 1))
  else (y - 1, 12, 31)

/-- Convert a UTC instant to the fixed target timezone `America/Fortaleza`
(UTC-03:00): subtract 180 minutes, borrowing a calendar day if needed. -/
def DT.toLocal (t : DT) : DT :=
  let mins := t.hour * 60 + t.minute
  if mins ≥ 180 then
    ⟨t.year, t.month, t.day, (mins - 180) / 60, (mins - 180) % 60⟩
  else
    let p := prevDay t.year t.month t.day
    let m2 := mins + 1260
    ⟨p.1, p.2.1, p.2.2, m2 / 60, m2 % 60⟩

/-- The date component of a timestamp (`Series.dt.date`). -/
def DT.dateOf (t : DT) : Date :=
  ⟨t.year, t.month, t.day⟩

/- ### Parsing -/

/-- Parse a string with the fixed format `%Y/%m/%d %H%M` as
`pd.to_datetime(..., format='%Y/%m/%d %H%M', errors='coerce')` does:
`none` models `NaT`. -/
def parseTs (s : String) : Option DT :=
  match splitChar ' ' s.data with
  | [datePart, timePart] =>
    match splitChar '/' datePart with
    | [ys, ms, ds] =>
      if ys ≠ [] ∧ ys.length ≤ 4 ∧ ys.all Char.isDigit ∧
         ms ≠ [] ∧ ms.length ≤ 2 ∧ ms.all Char.isDigit ∧
         ds ≠ [] ∧ ds.length ≤ 2 ∧ ds.all Char.isDigit ∧
         timePart.length = 4 ∧ timePart.all Char.isDigit then
        let y := digitsToNat ys
        let mo := digitsToNat ms
        let d := digitsToNat ds
        let h := digitsToNat (timePart.take 2)
        let mi := digitsToNat (timePart.drop 2)
        if 1 ≤ mo ∧ mo ≤ 12 ∧ 1 ≤ d ∧ d ≤ daysInMonth y mo ∧ h ≤ 23 ∧ mi ≤ 59 then
          some ⟨y, mo, d, h, mi⟩
        else none
      else none
    | _ => none
  | _ => none

/-- Parse a decimal numeral string as `pd.to_numeric(..., errors='coerce')`
does for plain decimal notation: optional sign, digits, optional fractional
part; anything else is `none` (coerced to `NaN`). -/
def parseFloat? (s : String) : Option ℚ :=
  let core : List Char → Option ℚ := fun l =>
    match splitChar '.' l with
    | [ip] =>
      if ip ≠ [] ∧ ip.all Char.isDigit then some ((digitsToNat ip : ℤ) : ℚ) else none
    | [ip, fp] =>
      if ip ≠ [] ∧ ip.all Char.isDigit ∧ fp.all Char.isDigit then
        some (((digitsToNat ip : ℤ) : ℚ) + (digitsToNat fp : ℚ) / ((10 : ℚ) ^ fp.length))
      else none
    | _ => none
  match s.data with
  | '-' :: rest => (core rest).map (fun q => -q)
  | '+' :: rest => core rest
  | l => core l

/- ### Silver stage: `process_bronze_to_silver` -/

/-- `COLUMN_RENAME_MAP`: the fixed lookup from raw header strings to
canonical column names. -/
def COLUMN_RENAME_MAP : List (String × String) :=
  [ ("Data", "data"),
    ("Hora UTC", "hora_utc"),
    ("PRECIPITAÇÃO TOTAL, HORÁRIO (mm)", "precipitacao_total_horario_mm"),
    ("PRESSAO ATMOSFERICA AO NIVEL DA ESTACAO, HORARIA (mB)", "pressao_atm_estacao_horaria_mb"),
    ("PRESSÃO ATMOSFERICA MAX.NA HORA ANT. (AUT) (mB)", "pressao_atm_max_hora_ant_mb"),
    ("PRESSÃO ATMOSFERICA MIN. NA HORA ANT. (AUT) (mB)", "pressao_atm_min_hora_ant_mb"),
    ("RADIACAO GLOBAL (Kj/m²)", "radiacao_global_kj_m2"),
    ("TEMPERATURA DO AR - BULBO SECO, HORARIA (°C)", "temperatura_ar_bulbo_seco_horaria_c"),
    ("TEMPERATURA DO PONTO DE ORVALHO (°C)", "temperatura_ponto_orvalho_c"),
    ("TEMPERATURA MÁXIMA NA HORA ANT. (AUT) (°C)", "temperatura_max_hora_ant_c"),
    ("TEMPERATURA MÍNIMA NA HORA ANT. (AUT) (°C)", "temperatura_min_hora_ant_c"),
    ("TEMPERATURA ORVALHO MAX. NA HORA ANT. (AUT) (°C)", "temperatura_orvalho_max_hora_ant_c"),
    ("TEMPERATURA ORVALHO MIN. NA HORA ANT. (AUT) (°C)", "temperatura_orvalho_min_hora_ant_c"),
    ("UMIDADE REL. MAX. NA HORA ANT. (AUT) (%)", "umidade_rel_max_hora_ant_percent"),
    ("UMIDADE REL. MIN. NA HORA ANT. (AUT) (%)", "umidade_rel_min_hora_ant_percent"),
    ("UMIDADE RELATIVA DO AR, HORARIA (%)", "umidade_relativa_ar_horaria_percent"),
    ("VENTO, DIREÇÃO HORARIA (gr) (° (gr))", "vento_direcao_horaria_gr"),
    ("VENTO, RAJADA MAXIMA (m/s)", "vento_rajada_maxima_ms"),
    ("VENTO, VELOCIDADE HORARIA (m/s)", "vento_velocidade_horaria_ms"),
    ("municipio", "municipio"),
    ("source_file", "source_file"),
    ("partition_year", "partition_year") ]

/-- `COLUMN_RENAME_MAP.get(c, c)`: the canonical name of a raw header, or the
header itself when it is not in the lookup. -/
def renameCol (c : String) : String :=
  match COLUMN_RENAME_MAP.find? (fun p => p.1 = c) with
  | some p => p.2
  | none => c

/-- The canonical column vocabulary (`COLUMN_RENAME_MAP.values()`). -/
def canonicalCols : List String :=
  COLUMN_RENAME_MAP.map (fun p => p.2)

/-- Step 1a of `process_bronze_to_silver`: rename the columns through the
fixed lookup (`df.rename(columns=lambda c: COLUMN_RENAME_MAP.get(c, c))`). -/
def renameStep (t : Table) : Table :=
  ⟨t.cols.map renameCol, t.rows.map (fun r => r.map (fun p => (renameCol p.1, p.2)))⟩

/-- Step 1b: keep only the expected canonical columns that are present
(`expected_cols = [col for col in COLUMN_RENAME_MAP.values() if col in df.columns]`
followed by `df = df[expected_cols]`). -/
def selectStep (t : Table) : Table :=
  let expected := canonicalCols.filter (fun c => decide (c ∈ t.cols))
  ⟨expected, t.rows.map (fun r => r.filter (fun p => decide (p.1 ∈ expected)))⟩

/-- Clean the `hora_utc` string: remove `" UTC"`, left-zero-pad to 4 digits,
and map the end-of-day sentinel `"2400"` to `"0000"` (same calendar date). -/
def cleanHora (s : String) : String :=
  let l := zfillL 4 (stripUTC s.data)
  if l = ['2', '4', '0', '0'] then String.mk ['0', '0', '0', '0'] else String.mk l

/-- The UTC instant a raw row parses to: cleaned hour appended to the date
string, parsed with the fixed format `%Y/%m/%d %H%M` (`none` is `NaT`). -/
def silverRowTs (r : Row) : Option DT :=
  parseTs (pyStr (rowGetD r "data") ++ " " ++ cleanHora (pyStr (rowGetD r "hora_utc")))

/-- A parsed timestamp as a cell: `NaT` when the parse failed. -/
def optTime : Option DT → Cell
  | some dt => Cell.time dt
  | none => Cell.na

/-- The timestamp columns written into a kept row: cleaned `hora_utc`,
`timestamp_utc` (the parsed UTC instant), and `timestamp_local` (the instant
converted to `America/Fortaleza`). -/
def tsTransformRow (r : Row) : Row :=
  rowSet
    (rowSet
      (rowSet r "hora_utc" (Cell.str (cleanHora (pyStr (rowGetD r "hora_utc")))))
      "timestamp_utc" (optTime (silverRowTs r)))
    "timestamp_local" (optTime ((silverRowTs r).map DT.toLocal))

/-- Step 2 of `process_bronze_to_silver`: build `timestamp_utc` and
`timestamp_local`, drop the rows whose timestamp failed to parse, and report
how many were dropped.  Accessing a missing `hora_utc` or `data` column
raises, and the surrounding handler re-raises (`KeyError`). -/
def timestampStep (t : Table) : Except String (Table × Nat) :=
  if "hora_utc" ∈ t.cols ∧ "data" ∈ t.cols then
    let kept := (t.rows.filter (fun r => (silverRowTs r).isSome)).map tsTransformRow
    Except.ok (⟨addCol (addCol t.cols "timestamp_utc") "timestamp_local", kept⟩,
               t.rows.length - kept.length)
  else Except.error "KeyError: hora_utc/data"

/-- The designated numeric measurement columns (`numeric_cols`). -/
def numericCols : List String :=
  [ "precipitacao_total_horario_mm", "pressao_atm_estacao_horaria_mb",
    "pressao_atm_max_hora_ant_mb", "pressao_atm_min_hora_ant_mb",
    "radiacao_global_kj_m2", "temperatura_ar_bulbo_seco_horaria_c",
    "temperatura_ponto_orvalho_c", "temperatura_max_hora_ant_c",
    "temperatura_min_hora_ant_c", "temperatura_orvalho_max_hora_ant_c",
    "temperatura_orvalho_min_hora_ant_c", "umidade_rel_max_hora_ant_percent",
    "umidade_rel_min_hora_ant_percent", "umidade_relativa_ar_horaria_percent",
    "vento_direcao_horaria_gr", "vento_rajada_maxima_ms",
    "vento_velocidade_horaria_ms" ]

/-- `pd.to_numeric(x, errors='coerce')` on one cell: numbers pass through,
parseable strings become numbers, everything else becomes absent. -/
def toNumericCell (c : Cell) : Cell :=
  match c with
  | Cell.num q => Cell.num q
  | Cell.str s =>
    match parseFloat? s with
    | some q => Cell.num q
    | none => Cell.na
  | _ => Cell.na

/-- Step 3a: coerce every designated numeric column that is present. -/
def coerceStep (t : Table) : Table :=
  numericCols.foldl (fun acc c => mapColIf acc c toNumericCell) t

/-- `df.loc[~df[col].between(lo, hi), col] = pd.NA` on one cell: a number
outside the inclusive range becomes absent; everything else is unchanged
(absent cells are re-assigned `pd.NA`, which is the identity here). -/
def clampCell (lo hi : ℚ) (c : Cell) : Cell :=
  match c with
  | Cell.num q => if lo ≤ q ∧ q ≤ hi then Cell.num q else Cell.na
  | c => c

/-- `df.loc[df[col] < 0, col] = pd.NA` on one cell: a negative number
becomes absent; everything else (including absent) is unchanged. -/
def precipCell (c : Cell) : Cell :=
  match c with
  | Cell.num q => if q < 0 then Cell.na else Cell.num q
  | c => c

/-- Step 3b, the data-quality rules: clamp the hourly relative humidity to
`[0, 100]`, null the negative precipitation values, and clamp every column
whose name contains `temperatura` to `[-20, 50]`. -/
def qualityStep (t : Table) : Table :=
  let t1 := mapColIf t "umidade_relativa_ar_horaria_percent" (clampCell 0 100)
  let t2 := mapColIf t1 "precipitacao_total_horario_mm" precipCell
  (t2.cols.filter (fun c => strContains c "temperatura")).foldl
    (fun acc c => mapColIf acc c (clampCell (-20) 50)) t2

/-- The deduplication business key:
`(timestamp_local, source_file)` (`drop_duplicates(subset=...)`). -/
def dedupKey (r : Row) : Option Cell × Option Cell :=
  (rowGet r "timestamp_local", rowGet r "source_file")

/-- Keep the first row carrying each key, in input order
(`drop_duplicates(..., keep='first')`); `seen` accumulates the keys of rows
already kept. -/
def keepFirstBy : List Row → List (Option Cell × Option Cell) → List Row
  | [], _ => []
  | r :: rs, seen =>
    if dedupKey r ∈ seen then keepFirstBy rs seen
    else r :: keepFirstBy rs (dedupKey r :: seen)

/-- Step 4: deduplicate on `(timestamp_local, source_file)`, keeping the first
occurrence; a missing subset column raises `KeyError`. -/
def dedupStep (t : Table) : Except String Table :=
  if "timestamp_local" ∈ t.cols ∧ "source_file" ∈ t.cols then
    Except.ok ⟨t.cols, keepFirstBy t.rows []⟩
  else Except.error "KeyError: drop_duplicates subset"

/-- Step 5a: derive `partition_year` and `partition_month` from the UTC
instant (`df['timestamp_utc'].dt.year` / `.dt.month`). -/
def partitionStep (t : Table) : Table :=
  let t1 := mapColNew t "partition_year"
    (fun r =>
      match rowGetD r "timestamp_utc" with
      | Cell.time dt => Cell.num (dt.year : ℚ)
      | _ => Cell.na)
  mapColNew t1 "partition_month"
    (fun r =>
      match rowGetD r "timestamp_utc" with
      | Cell.time dt => Cell.num (dt.month : ℚ)
      | _ => Cell.na)

/-- The transformation-only columns dropped at the end of the Silver stage. -/
def silverDroppedCols : List String :=
  ["data", "hora_utc", "timestamp_utc"]

/-- Step 5b: drop the transformation columns
(`df.drop(columns=['data', 'hora_utc', 'timestamp_utc'], errors='ignore')`). -/
def dropColsStep (t : Table) : Table :=
  ⟨t.cols.filter (fun c => decide (c ∉ silverDroppedCols)),
   t.rows.map (fun r => rowDrop r silverDroppedCols)⟩

/-- `process_bronze_to_silver`: the full Bronze-to-Silver transformation.
Returns the Silver table together with the observable count of rows dropped
for an unparseable timestamp; `Except.error` models an uncaught (or re-raised)
exception. -/
def process_bronze_to_silver (t : Table) : Except String (Table × Nat) :=
  match timestampStep (selectStep (renameStep t)) with
  | Except.error e => Except.error e
  | Except.ok (t2, dropped) =>
    match dedupStep (qualityStep (coerceStep t2)) with
    | Except.error e => Except.error e
    | Except.ok t4 => Except.ok (dropColsStep (partitionStep t4), dropped)

/-- `write_silver_dataset`: an empty table is not written; otherwise the
storage write is attempted, and a storage failure is caught and logged by the
`except` block, which does not re-raise — the function returns normally
either way. -/
def write_silver_dataset (df : Table) (storage : Except String Unit) :
    Except String Unit :=
  if df.rows.isEmpty then Except.ok ()
  else
    match storage with
    | Except.ok () => Except.ok ()
    | Except.error _e => Except.ok ()

/- ### Gold stage: `aggregate_to_gold` and `write_gold_dataset` -/

/-- `load_silver_data`: require `timestamp_local` and derive `data_local`,
the local calendar date used as the daily aggregation key. -/
def loadSilverPrep (t : Table) : Except String Table :=
  if "timestamp_local" ∈ t.cols then
    Except.ok (mapColNew t "data_local"
      (fun r =>
        match rowGetD r "timestamp_local" with
        | Cell.time dt => Cell.date dt.dateOf
        | _ => Cell.na))
  else Except.error "ValueError: A camada Silver deve conter timestamp_local"

/-- Station-identifier normalization on one cell: whitespace to underscores,
upper-cased (`.str.replace(' ', '_').str.upper()`); the `.str` accessor turns
non-string values into absent. -/
def muniCell (c : Cell) : Cell :=
  match c with
  | Cell.str s =>
    Cell.str (String.mk ((s.data.map (fun ch => if ch = ' ' then '_' else ch)).map Char.toUpper))
  | _ => Cell.na

/-- Standardize the `municipio` column for partitioning. -/
def municipioStep (t : Table) : Table :=
  mapColIf t "municipio" muniCell

/-- The aggregation operators used by the Gold stage. -/
inductive AggOp where
  | amax
  | amin
  | asum
  | amean
deriving DecidableEq, Repr

/-- `all_named_agg_rules`: output metric name, source column, operator. -/
def allAggRules : List (String × String × AggOp) :=
  [ ("temp_maxima_diaria_c", "temperatura_max_hora_ant_c", AggOp.amax),
    ("temp_minima_diaria_c", "temperatura_min_hora_ant_c", AggOp.amin),
    ("precipitacao_total_diaria_mm", "precipitacao_total_horario_mm", AggOp.asum),
    ("temp_media_diaria_c", "temperatura_ar_bulbo_seco_horaria_c", AggOp.amean),
    ("umidade_media_diaria_percentual", "umidade_relativa_ar_horaria_percent", AggOp.amean),
    ("radiacao_total_diaria_kj_m2", "radiacao_global_kj_m2", AggOp.asum),
    ("vento_velocidade_media_diaria_ms", "vento_velocidade_horaria_ms", AggOp.amean),
    ("vento_rajada_maxima_diaria_ms", "vento_velocidade_horaria_ms", AggOp.amax) ]

/-- The aggregation rules whose source column exists in the input
(`available_agg_rules`). -/
def availableRules (cols : List String) : List (String × String × AggOp) :=
  allAggRules.filter (fun rl => decide (rl.2.1 ∈ cols))

/-- Pandas aggregation over the cells of one group's source column with
default `skipna` semantics: `sum` of no present values is `0` (the default
`min_count=0`), while `mean`/`max`/`min` of no present values are `NaN`. -/
def aggCell (f : AggOp) (cells : List Cell) : Cell :=
  let nums := cells.filterMap (fun c =>
    match c with
    | Cell.num q => some q
    | _ => none)
  match f with
  | AggOp.asum => Cell.num (nums.foldl (fun a b => a + b) 0)
  | AggOp.amean =>
    match nums with
    | [] => Cell.na
    | x :: xs => Cell.num ((xs.foldl (fun a b => a + b) x) / (nums.length : ℚ))
  | AggOp.amax =>
    match nums with
    | [] => Cell.na
    | x :: xs => Cell.num (xs.foldl max x)
  | AggOp.amin =>
    match nums with
    | [] => Cell.na
    | x :: xs => Cell.num (xs.foldl min x)

/-- The grouping key of a row: `(data_local, municipio)`. -/
def groupKey (r : Row) : Cell × Cell :=
  (rowGetD r "data_local", rowGetD r "municipio")

/-- The distinct elements of a list in first-occurrence order; `seen`
accumulates the values already emitted. -/
def firstKeys : List (Cell × Cell) → List (Cell × Cell) → List (Cell × Cell)
  | [], _ => []
  | k :: rest, seen =>
    if k ∈ seen then firstKeys rest seen
    else k :: firstKeys rest (k :: seen)

/-- One aggregated output row: the two grouping keys followed by each
available metric computed over the group. -/
def buildRow (k : Cell × Cell) (grp : List Row)
    (avail : List (String × String × AggOp)) : Row :=
  ("data_local", k.1) :: ("municipio", k.2) ::
    avail.map (fun rl => (rl.1, aggCell rl.2.2 (grp.map (fun x => rowGetD x rl.2.1))))

/-- `groupby(['data_local', 'municipio'], as_index=False).agg(**available)`:
rows with an absent grouping key are dropped (pandas `groupby` default), the
remaining rows are grouped, and each group yields one output row.  The order
in which groups are emitted is not relied upon by any property below (pandas
sorts group keys; first-occurrence order is used here). -/
def aggCore (t : Table) : Table :=
  let avail := availableRules t.cols
  let valid := t.rows.filter
    (fun r => decide (rowGetD r "data_local" ≠ Cell.na ∧ rowGetD r "municipio" ≠ Cell.na))
  let ks := firstKeys (valid.map groupKey) []
  ⟨"data_local" :: "municipio" :: avail.map (fun rl => rl.1),
   ks.map (fun k => buildRow k (valid.filter (fun x => decide (groupKey x = k))) avail)⟩

/-- `NaN`-propagating subtraction of two cells. -/
def cellSub (a b : Cell) : Cell :=
  match a, b with
  | Cell.num x, Cell.num y => Cell.num (x - y)
  | _, _ => Cell.na

/-- Derived metric: `amplitude_termica_diaria_c = temp_maxima - temp_minima`,
computed only when both input columns are present. -/
def amplitudeStep (t : Table) : Table :=
  if "temp_maxima_diaria_c" ∈ t.cols ∧ "temp_minima_diaria_c" ∈ t.cols then
    mapColNew t "amplitude_termica_diaria_c"
      (fun r => cellSub (rowGetD r "temp_maxima_diaria_c") (rowGetD r "temp_minima_diaria_c"))
  else t

/-- The floor of a rational number, as integer floor-division of its
numerator by its denominator. -/
def qfloor (q : ℚ) : ℤ :=
  Int.fdiv q.num (q.den : ℤ)

/-- Round half to even (the tie-breaking rule of `numpy`/pandas `round`). -/
def roundHalfEven (q : ℚ) : ℤ :=
  let f := qfloor q
  let frac := q - (f : ℚ)
  if frac < 1 / 2 then f
  else if frac > 1 / 2 then f + 1
  else if f % 2 = 0 then f else f + 1

/-- Round a rational to `d` decimal places, half to even. -/
def roundTo (d : Nat) (q : ℚ) : ℚ :=
  (roundHalfEven (q * (10 : ℚ) ^ d) : ℚ) / (10 : ℚ) ^ d

/-- `Series.round(d)` on one cell: numbers are rounded, absent stays absent. -/
def roundCell (d : Nat) (c : Cell) : Cell :=
  match c with
  | Cell.num q => Cell.num (roundTo d q)
  | c => c

/-- `rounding_map`: the metric-specific decimal precision. -/
def roundingMap : List (String × Nat) :=
  [ ("temp_maxima_diaria_c", 2),
    ("temp_minima_diaria_c", 2),
    ("precipitacao_total_diaria_mm", 1),
    ("temp_media_diaria_c", 2),
    ("umidade_media_diaria_percentual", 2),
    ("radiacao_total_diaria_kj_m2", 2),
    ("vento_velocidade_media_diaria_ms", 2),
    ("vento_rajada_maxima_diaria_ms", 2),
    ("amplitude_termica_diaria_c", 2) ]

/-- Round each metric column that is present to its declared precision. -/
def roundingStep (t : Table) : Table :=
  roundingMap.foldl (fun acc cd => mapColIf acc cd.1 (roundCell cd.2)) t

/-- `aggregate_to_gold`: standardize `municipio` (fatal if absent), keep the
rules whose source column exists (an empty rule set yields an empty table),
group by `(data_local, municipio)` (fatal if `data_local` is absent), compute
the derived amplitude when both temperature aggregates exist, and round. -/
def aggregate_to_gold (t0 : Table) : Except String Table :=
  if "municipio" ∈ t0.cols then
    if availableRules (municipioStep t0).cols = [] then Except.ok ⟨[], []⟩
    else if "data_local" ∈ (municipioStep t0).cols then
      Except.ok (roundingStep (amplitudeStep (aggCore (municipioStep t0))))
    else Except.error "KeyError: data_local"
  else Except.error "ValueError: Coluna municipio ausente na camada Silver"

/-- `schema_fields`: the declared Gold target schema, in order; the flag
records whether the column has a decimal type. -/
def goldSchema : List (String × Bool) :=
  [ ("data_local", false),
    ("municipio", false),
    ("temp_maxima_diaria_c", true),
    ("temp_minima_diaria_c", true),
    ("precipitacao_total_diaria_mm", true),
    ("temp_media_diaria_c", true),
    ("umidade_media_diaria_percentual", true),
    ("radiacao_total_diaria_kj_m2", true),
    ("vento_velocidade_media_diaria_ms", true),
    ("vento_rajada_maxima_diaria_ms", true),
    ("amplitude_termica_diaria_c", true),
    ("ano", false),
    ("mes", false) ]

/-- The declared Gold schema column names, in order. -/
def goldSchemaCols : List String :=
  goldSchema.map (fun p => p.1)

/-- `Decimal(str(x)) if pd.notna(x) and isinstance(x, (int, float)) and
np.isfinite(x) else None` on one cell: numbers keep their exact value,
everything else becomes `None`. -/
def decCell (c : Cell) : Cell :=
  match c with
  | Cell.num q => Cell.num q
  | _ => Cell.na

/-- Derive the partition keys `ano` and `mes` from `data_local`
(`df['ano'] = df['data_local'].dt.year`, `df['mes'] = ....dt.month`). -/
def anoMesStep (t : Table) : Table :=
  mapColNew
    (mapColNew t "ano"
      (fun r =>
        match rowGetD r "data_local" with
        | Cell.date d => Cell.num (d.year : ℚ)
        | _ => Cell.na))
    "mes"
    (fun r =>
      match rowGetD r "data_local" with
      | Cell.date d => Cell.num (d.month : ℚ)
      | _ => Cell.na)

/-- The schema-alignment fold of `write_gold_dataset`
(`for col_name in schema_fields: if col_name not in df.columns: df[col_name] = None`). -/
def addMissingFold (sch : List (String × Bool)) (t : Table) : Table :=
  sch.foldl (fun acc cd => if cd.1 ∈ acc.cols then acc else addNullCol acc cd.1) t

/-- Convert each decimal-typed schema column that is present
(`Decimal(str(x)) ... else None`, applied per column). -/
def decimalFold (t : Table) : Table :=
  (goldSchema.filter (fun cd => cd.2)).foldl (fun acc cd => mapColIf acc cd.1 decCell) t

/-- The final column order: the declared schema order restricted to present
columns (`[col for col in schema_fields.keys() if col in df.columns]`). -/
def goldOrder (t : Table) : List String :=
  goldSchemaCols.filter (fun c => decide (c ∈ t.cols))

/-- Reorder (and thereby restrict) the table to the final schema order
(`df = df[final_columns_order]`). -/
def projectStep (t : Table) : Table :=
  ⟨goldOrder t, t.rows.map (fun r => projectRow r (goldOrder t))⟩

/-- The in-memory preparation `write_gold_dataset` performs before handing the
table to storage: derive `ano`/`mes` from `data_local` (a missing `data_local`
raises), add every declared schema column still missing as an all-`None`
column, convert the decimal-typed columns, and reorder to the schema order. -/
def prepareGoldForWrite (t : Table) : Except String Table :=
  if "data_local" ∈ t.cols then
    Except.ok (projectStep (decimalFold (addMissingFold goldSchema (anoMesStep t))))
  else Except.error "KeyError: data_local"

/-- `write_gold_dataset`: an empty table is not written (`.ok none`);
otherwise the table is prepared and handed to storage, and any exception in
the `try` block — including a storage write failure — is re-raised. -/
def write_gold_dataset (df : Table) (storage : Except String Unit) :
    Except String (Option Table) :=
  if df.rows.isEmpty then Except.ok none
  else
    match prepareGoldForWrite df with
    | Except.error e => Except.error e
    | Except.ok p =>
      match storage with
      | Except.ok () => Except.ok (some p)
      | Except.error e => Except.error e

/-- The Silver-to-Gold pipeline body (`main_gold` without the logging):
load, aggregate, and write, with an empty aggregate short-circuiting. -/
def goldPipeline (t : Table) (storage : Except String Unit) :
    Except String (Option Table) :=
  match loadSilverPrep t with
  | Except.error e => Except.error e
  | Except.ok t1 =>
    match aggregate_to_gold t1 with
    | Except.error e => Except.error e
    | Except.ok g => write_gold_dataset g storage

/- ### C6: propagation of storage write failures -/

/-- A non-empty prepared Gold table used to exercise the write paths. -/
def goldWriteEx : Table :=
  ⟨["data_local", "municipio"],
   [[("data_local", Cell.date ⟨2025, 1, 1⟩), ("municipio", Cell.str "NATAL")]]⟩

/-- A non-empty Silver table used to exercise the write paths. -/
def silverWriteEx : Table :=
  ⟨["timestamp_local", "source_file"],
   [[("timestamp_local", Cell.time ⟨2025, 1, 1, 0, 0⟩), ("source_file", Cell.str "f1.csv")]]⟩

/- ### C4: a Silver table with no precipitation column -/

/-- An hourly Silver table with no precipitation column at all. -/
def silverNoPrecip : Table :=
  ⟨["timestamp_local", "municipio", "temperatura_max_hora_ant_c"],
   [[("timestamp_local", Cell.time ⟨2025, 4, 1, 12, 0⟩),
     ("municipio", Cell.str "Joao Pessoa"),
     ("temperatura_max_hora_ant_c", Cell.num 30)]]⟩

/-- A daily Silver table (with `data_local`) lacking precipitation. -/
def c4SilverT : Table :=
  ⟨["data_local", "municipio", "temperatura_max_hora_ant_c"],
   [[("data_local", Cell.date ⟨2025, 4, 1⟩),
     ("municipio", Cell.str "NATAL"),
     ("temperatura_max_hora_ant_c", Cell.num 30)]]⟩

/-- The aggregate of `c4SilverT`: no precipitation metric column. -/
def c4AggT : Table :=
  ⟨["data_local", "municipio", "temp_maxima_diaria_c"],
   [[("data_local", Cell.date ⟨2025, 4, 1⟩),
     ("municipio", Cell.str "NATAL"),
     ("temp_maxima_diaria_c", Cell.num 30)]]⟩

/-- The prepared (schema-enforced) form of `c4AggT`. -/
def c4PrepT : Table :=
  ⟨goldSchemaCols,
   [[("data_local", Cell.date ⟨2025, 4, 1⟩),
     ("municipio", Cell.str "NATAL"),
     ("temp_maxima_diaria_c", Cell.num 30),
     ("temp_minima_diaria_c", Cell.na),
     ("precipitacao_total_diaria_mm", Cell.na),
     ("temp_media_diaria_c", Cell.na),
     ("umidade_media_diaria_percentual", Cell.na),
     ("radiacao_total_diaria_kj_m2", Cell.na),
     ("vento_velocidade_media_diaria_ms", Cell.na),
     ("vento_rajada_maxima_diaria_ms", Cell.na),
     ("amplitude_termica_diaria_c", Cell.na),
     ("ano", Cell.num 2025),
     ("mes", Cell.num 4)]]⟩

/- ### C5: the declared schema is always enforced on the written Gold table -/

/-- An aggregated Gold table lacking `municipio` and most metrics. -/
def c5AggT : Table :=
  ⟨["data_local", "temp_media_diaria_c"],
   [[("data_local", Cell.date ⟨2025, 7, 15⟩), ("temp_media_diaria_c", Cell.num 25)]]⟩

/-- The prepared (schema-enforced) form of `c5AggT`. -/
def c5PrepT : Table :=
  ⟨goldSchemaCols,
   [[("data_local", Cell.date ⟨2025, 7, 15⟩),
     ("municipio", Cell.na),
     ("temp_maxima_diaria_c", Cell.na),
     ("temp_minima_diaria_c", Cell.na),
     ("precipitacao_total_diaria_mm", Cell.na),
     ("temp_media_diaria_c", Cell.num 25),
     ("umidade_media_diaria_percentual", Cell.na),
     ("radiacao_total_diaria_kj_m2", Cell.na),
     ("vento_velocidade_media_diaria_ms", Cell.na),
     ("vento_rajada_maxima_diaria_ms", Cell.na),
     ("amplitude_termica_diaria_c", Cell.na),
     ("ano", Cell.num 2025),
     ("mes", Cell.num 7)]]⟩

/-- A raw Bronze table with a duplicated `(timestamp, source_file)` row. -/
def c2Bronze : Table :=
  ⟨["Data", "Hora UTC", "source_file"],
   [[("Data", Cell.str "2023/05/10"), ("Hora UTC", Cell.str "1200 UTC"),
     ("source_file", Cell.str "a.csv")],
    [("Data", Cell.str "2023/05/10"), ("Hora UTC", Cell.str "1200 UTC"),
     ("source_file", Cell.str "a.csv")],
    [("Data", Cell.str "2023/05/10"), ("Hora UTC", Cell.str "1300 UTC"),
     ("source_file", Cell.str "a.csv")]]⟩

/-- The Silver output of `c2Bronze`: one of the two duplicate rows is gone. -/
def c2Silver : Table :=
  ⟨["source_file", "timestamp_local", "partition_year", "partition_month"],
   [[("source_file", Cell.str "a.csv"),
     ("timestamp_local", Cell.time ⟨2023, 5, 10, 9, 0⟩),
     ("partition_year", Cell.num 2023),
     ("partition_month", Cell.num 5)],
    [("source_file", Cell.str "a.csv"),
     ("timestamp_local", Cell.time ⟨2023, 5, 10, 10, 0⟩),
     ("partition_year", Cell.num 2023),
     ("partition_month", Cell.num 5)]]⟩

/-- A table with two rows sharing the deduplication key. -/
def c2DedupIn : Table :=
  ⟨["timestamp_local", "source_file"],
   [[("timestamp_local", Cell.time ⟨2023, 5, 10, 9, 0⟩), ("source_file", Cell.str "a.csv")],
    [("timestamp_local", Cell.time ⟨2023, 5, 10, 9, 0⟩), ("source_file", Cell.str "a.csv")]]⟩

/-- The deduplicated form of `c2DedupIn`: only the first row remains. -/
def c2DedupOut : Table :=
  ⟨["timestamp_local", "source_file"],
   [[("timestamp_local", Cell.time ⟨2023, 5, 10, 9, 0⟩), ("source_file", Cell.str "a.csv")]]⟩

/-- A raw row whose UTC instant falls in March but whose local (Fortaleza)
instant falls in February. -/
def c7Bronze : Table :=
  ⟨["Data", "Hora UTC", "source_file"],
   [[("Data", Cell.str "2025/03/01"), ("Hora UTC", Cell.str "0100 UTC"),
     ("source_file", Cell.str "st1.csv")]]⟩

/-- The Silver output of `c7Bronze`: the local timestamp is in February, but
the partition keys are taken from the March UTC instant. -/
def c7Silver : Table :=
  ⟨["source_file", "timestamp_local", "partition_year", "partition_month"],
   [[("source_file", Cell.str "st1.csv"),
     ("timestamp_local", Cell.time ⟨2025, 2, 28, 22, 0⟩),
     ("partition_year", Cell.num 2025),
     ("partition_month", Cell.num 3)]]⟩

/- ### C1: plausibility ranges after the quality rules -/

/-- A raw table whose max-humidity variant column holds the out-of-range
value 150. -/
def c1Bronze : Table :=
  ⟨["Data", "Hora UTC", "UMIDADE REL. MAX. NA HORA ANT. (AUT) (%)", "source_file"],
   [[("Data", Cell.str "2023/01/01"), ("Hora UTC", Cell.str "0400 UTC"),
     ("UMIDADE REL. MAX. NA HORA ANT. (AUT) (%)", Cell.str "150"),
     ("source_file", Cell.str "f1.csv")]]⟩

/-- A raw table whose hourly relative-humidity value 80 is in range. -/
def c1BronzeOk : Table :=
  ⟨["Data", "Hora UTC", "UMIDADE RELATIVA DO AR, HORARIA (%)", "source_file"],
   [[("Data", Cell.str "2023/01/01"), ("Hora UTC", Cell.str "0400 UTC"),
     ("UMIDADE RELATIVA DO AR, HORARIA (%)", Cell.str "80"),
     ("source_file", Cell.str "f1.csv")]]⟩

/-- The Silver output of `c1BronzeOk`. -/
def c1SilverOk : Table :=
  ⟨["umidade_relativa_ar_horaria_percent", "source_file", "timestamp_local",
    "partition_year", "partition_month"],
   [[("umidade_relativa_ar_horaria_percent", Cell.num 80),
     ("source_file", Cell.str "f1.csv"),
     ("timestamp_local", Cell.time ⟨2023, 1, 1, 1, 0⟩),
     ("partition_year", Cell.num 2023),
     ("partition_month", Cell.num 1)]]⟩

/- ### C9: behaviour on missing raw columns -/

/-- A raw table missing the hour-of-day column `Hora UTC`. -/
def c9Bronze : Table :=
  ⟨["Data", "PRECIPITAÇÃO TOTAL, HORÁRIO (mm)", "source_file"],
   [[("Data", Cell.str "2024/06/01"),
     ("PRECIPITAÇÃO TOTAL, HORÁRIO (mm)", Cell.str "1.5"),
     ("source_file", Cell.str "x.csv")]]⟩

/-- A raw table with the three required columns and no measurement columns. -/
def c9okBronze : Table :=
  ⟨["Data", "Hora UTC", "source_file"],
   [[("Data", Cell.str "2024/06/01"), ("Hora UTC", Cell.str "0000 UTC"),
     ("source_file", Cell.str "x.csv")]]⟩

/-- The Silver output of `c9okBronze`. -/
def c9okSilver : Table :=
  ⟨["source_file", "timestamp_local", "partition_year", "partition_month"],
   [[("source_file", Cell.str "x.csv"),
     ("timestamp_local", Cell.time ⟨2024, 5, 31, 21, 0⟩),
     ("partition_year", Cell.num 2024),
     ("partition_month", Cell.num 6)]]⟩

/-- A canonical-named table with one parseable and one unparseable row. -/
def c3T : Table :=
  ⟨["data", "hora_utc"],
   [[("data", Cell.str "2023/01/01"), ("hora_utc", Cell.str "0400 UTC")],
    [("data", Cell.str "invalid"), ("hora_utc", Cell.str "0400 UTC")]]⟩

/-- The timestamp-step output of `c3T`: the unparseable row is dropped. -/
def c3TOut : Table :=
  ⟨["data", "hora_utc", "timestamp_utc", "timestamp_local"],
   [[("data", Cell.str "2023/01/01"),
     ("hora_utc", Cell.str "0400"),
     ("timestamp_utc", Cell.time ⟨2023, 1, 1, 4, 0⟩),
     ("timestamp_local", Cell.time ⟨2023, 1, 1, 1, 0⟩)]]⟩

/-- Whether a cell holds a number (a present measurement value). -/
def isNumCell : Cell → Bool
  | Cell.num _ => true
  | _ => false

/-- A Silver table with one group whose precipitation and dry-bulb
temperature values are all absent. -/
def c10Silver : Table :=
  ⟨["data_local", "municipio", "precipitacao_total_horario_mm",
    "temperatura_ar_bulbo_seco_horaria_c"],
   [[("data_local", Cell.date ⟨2025, 5, 2⟩), ("municipio", Cell.str "PATOS"),
     ("precipitacao_total_horario_mm", Cell.na),
     ("temperatura_ar_bulbo_seco_horaria_c", Cell.na)],
    [("data_local", Cell.date ⟨2025, 5, 2⟩), ("municipio", Cell.str "PATOS"),
     ("precipitacao_total_horario_mm", Cell.na),
     ("temperatura_ar_bulbo_seco_horaria_c", Cell.na)]]⟩

/-- The Gold aggregate of `c10Silver`: sum is `0`, mean is absent. -/
def c10Gold : Table :=
  ⟨["data_local", "municipio", "precipitacao_total_diaria_mm", "temp_media_diaria_c"],
   [[("data_local", Cell.date ⟨2025, 5, 2⟩),
     ("municipio", Cell.str "PATOS"),
     ("precipitacao_total_diaria_mm", Cell.num 0),
     ("temp_media_diaria_c", Cell.na)]]⟩

/-- A Silver table with both temperature extremes (32.5 and 29). -/
def c8Silver : Table :=
  ⟨["data_local", "municipio", "temperatura_max_hora_ant_c", "temperatura_min_hora_ant_c"],
   [[("data_local", Cell.date ⟨2025, 4, 1⟩), ("municipio", Cell.str "PATOS"),
     ("temperatura_max_hora_ant_c", Cell.num (65 / 2)),
     ("temperatura_min_hora_ant_c", Cell.num 29)]]⟩

/-- The Gold aggregate of `c8Silver`: amplitude 32.5 − 29 = 3.5. -/
def c8Gold : Table :=
  ⟨["data_local", "municipio", "temp_maxima_diaria_c", "temp_minima_diaria_c",
    "amplitude_termica_diaria_c"],
   [[("data_local", Cell.date ⟨2025, 4, 1⟩),
     ("municipio", Cell.str "PATOS"),
     ("temp_maxima_diaria_c", Cell.num (65 / 2)),
     ("temp_minima_diaria_c", Cell.num 29),
     ("amplitude_termica_diaria_c", Cell.num (7 / 2))]]⟩

/-- A Silver table with the maximum but not the minimum temperature column. -/
def c8SilverNoMin : Table :=
  ⟨["data_local", "municipio", "temperatura_max_hora_ant_c"],
   [[("data_local", Cell.date ⟨2025, 4, 1⟩), ("municipio", Cell.str "PATOS"),
     ("temperatura_max_hora_ant_c", Cell.num (65 / 2))]]⟩

/-- The Gold aggregate of `c8SilverNoMin`: no amplitude column. -/
def c8GoldNoMin : Table :=
  ⟨["data_local", "municipio", "temp_maxima_diaria_c"],
   [[("data_local", Cell.date ⟨2025, 4, 1⟩),
     ("municipio", Cell.str "PATOS"),
     ("temp_maxima_diaria_c", Cell.num (65 / 2))]]⟩

/- ### Basic lemmas about rows and columns -/

theorem rowGet_append (r1 r2 : Row) (c : String) :
    rowGet (r1 ++ r2) c =
      match rowGet r1 c with
      | some v => some v
      | none => rowGet r2 c := by
  induction r1 with
  | nil => simp [rowGet]
  | cons p rest ih =>
    obtain ⟨k, x⟩ := p
    by_cases h : k = c
    · simp [rowGet, h]
    · simp [rowGet, h, ih]

theorem rowGet_mapReplace_self (r : Row) (c : String) (v : Cell)
    (h : rowGet r c ≠ none) :
    rowGet (r.map (fun p => if p.1 = c then (c, v) else p)) c = some v := by
  induction r with
  | nil => simp [rowGet] at h
  | cons p rest ih =>
    obtain ⟨k, x⟩ := p
    rw [List.map_cons]
    by_cases hk : k = c
    · have he : (if (k, x).1 = c then (c, v) else (k, x)) = (c, v) := by simp [hk]
      rw [he]
      simp [rowGet]
    · have he : (if (k, x).1 = c then (c, v) else (k, x)) = (k, x) := by simp [hk]
      rw [he]
      simp only [rowGet, hk, if_false] at h ⊢
      exact ih h

theorem rowGet_mapReplace_ne (r : Row) (c c' : String) (v : Cell) (h : c' ≠ c) :
    rowGet (r.map (fun p => if p.1 = c then (c, v) else p)) c' = rowGet r c' := by
  induction r with
  | nil => simp [rowGet]
  | cons p rest ih =>
    obtain ⟨k, x⟩ := p
    rw [List.map_cons]
    by_cases hk : k = c
    · have he : (if (k, x).1 = c then (c, v) else (k, x)) = (c, v) := by simp [hk]
      rw [he]
      have h1 : ¬c = c' := fun hh => h hh.symm
      have h2 : ¬k = c' := fun hh => h (hk ▸ hh).symm
      simp only [rowGet, h1, h2, if_false]
      exact ih
    · have he : (if (k, x).1 = c then (c, v) else (k, x)) = (k, x) := by simp [hk]
      rw [he]
      by_cases hk' : k = c'
      · simp [rowGet, hk']
      · simp only [rowGet, hk', if_false]
        exact ih

theorem rowGet_set_self (r : Row) (c : String) (v : Cell) :
    rowGet (rowSet r c v) c = some v := by
  unfold rowSet
  split
  · rename_i hnone
    rw [rowGet_append, hnone]
    simp [rowGet]
  · rename_i hsome
    exact rowGet_mapReplace_self r c v hsome

theorem rowGet_set_ne (r : Row) (c c' : String) (v : Cell) (h : c' ≠ c) :
    rowGet (rowSet r c v) c' = rowGet r c' := by
  unfold rowSet
  split
  · rw [rowGet_append]
    cases hg : rowGet r c' with
    | some w => simp
    | none =>
      have h1 : ¬c = c' := fun hh => h hh.symm
      simp [rowGet, h1]
  · exact rowGet_mapReplace_ne r c c' v h

theorem rowGet_drop_notMem (r : Row) (bad : List String) (c : String) (h : c ∉ bad) :
    rowGet (rowDrop r bad) c = rowGet r c := by
  induction r with
  | nil => rfl
  | cons p rest ih =>
    obtain ⟨k, x⟩ := p
    rw [rowDrop, List.filter_cons]
    by_cases hb : k ∈ bad
    · have hd : decide ((k, x).1 ∉ bad) = false := by simp [hb]
      rw [hd]
      simp only [Bool.false_eq_true, if_false]
      have hk : k ≠ c := fun hh => h (hh ▸ hb)
      rw [show rowGet ((k, x) :: rest) c = rowGet rest c from by simp [rowGet, hk]]
      exact ih
    · have hd : decide ((k, x).1 ∉ bad) = true := by simp [hb]
      rw [hd]
      simp only [if_true]
      by_cases hk : k = c
      · simp [rowGet, hk]
      · simp only [rowGet, hk, if_false]
        exact ih

theorem rowGet_drop_mem (r : Row) (bad : List String) (c : String) (h : c ∈ bad) :
    rowGet (rowDrop r bad) c = none := by
  induction r with
  | nil => rfl
  | cons p rest ih =>
    obtain ⟨k, x⟩ := p
    rw [rowDrop, List.filter_cons]
    by_cases hb : k ∈ bad
    · have hd : decide ((k, x).1 ∉ bad) = false := by simp [hb]
      rw [hd]
      simp only [Bool.false_eq_true, if_false]
      exact ih
    · have hd : decide ((k, x).1 ∉ bad) = true := by simp [hb]
      rw [hd]
      simp only [if_true]
      have hk : k ≠ c := fun hh => hb (hh ▸ h)
      simp only [rowGet, hk, if_false]
      exact ih

theorem rowGet_project (r : Row) (order : List String) (c : String) :
    rowGet (projectRow r order) c =
      if c ∈ order then some (rowGetD r c) else none := by
  induction order with
  | nil => simp [projectRow, rowGet]
  | cons k rest ih =>
    by_cases hk : k = c
    · subst hk
      simp [projectRow, rowGet]
    · simp only [projectRow, List.map_cons, rowGet, hk, if_false]
      simp only [projectRow] at ih
      rw [ih]
      have hck : ¬c = k := fun hh => hk hh.symm
      simp [List.mem_cons, hck]

theorem mem_addCol (cols : List String) (c c' : String) :
    c ∈ addCol cols c' ↔ c ∈ cols ∨ c = c' := by
  unfold addCol
  split
  · rename_i hmem
    constructor
    · exact fun h => Or.inl h
    · rintro (h | rfl)
      · exact h
      · exact hmem
  · simp [List.mem_append]

theorem addCol_nodup (cols : List String) (c : String) (h : cols.Nodup) :
    (addCol cols c).Nodup := by
  unfold addCol
  split
  · exact h
  · rename_i hmem
    simpa [List.nodup_append, h] using fun hc => hmem hc

theorem mapColIf_cols (t : Table) (c : String) (f : Cell → Cell) :
    (mapColIf t c f).cols = t.cols := by
  unfold mapColIf
  split <;> rfl

theorem mapColIf_rows_elim (t : Table) (c : String) (f : Cell → Cell) (r' : Row)
    (h : r' ∈ (mapColIf t c f).rows) :
    ∃ r ∈ t.rows, (c ∈ t.cols ∧ r' = rowSet r c (f (rowGetD r c))) ∨ (c ∉ t.cols ∧ r' = r) := by
  unfold mapColIf at h
  split at h
  · rename_i hmem
    obtain ⟨r, hr, rfl⟩ := List.mem_map.mp h
    exact ⟨r, hr, Or.inl ⟨hmem, rfl⟩⟩
  · rename_i hmem
    exact ⟨r', h, Or.inr ⟨hmem, rfl⟩⟩

/- ### A generic description of folds of per-column transforms -/

theorem foldMapColIf_cols {α : Type} (key : α → String) (opf : α → Cell → Cell)
    (l : List α) (t : Table) :
    (l.foldl (fun acc a => mapColIf acc (key a) (opf a)) t).cols = t.cols := by
  induction l generalizing t with
  | nil => rfl
  | cons a rest ih => rw [List.foldl_cons, ih, mapColIf_cols]

theorem foldMapColIf_rows {α : Type} (key : α → String) (opf : α → Cell → Cell)
    (l : List α) (t : Table) (hnd : (l.map key).Nodup) :
    ∀ r' ∈ (l.foldl (fun acc a => mapColIf acc (key a) (opf a)) t).rows,
      ∃ r ∈ t.rows,
        (∀ c, c ∉ l.map key → rowGet r' c = rowGet r c) ∧
        (∀ a ∈ l, key a ∈ t.cols → rowGet r' (key a) = some (opf a (rowGetD r (key a)))) ∧
        (∀ a ∈ l, key a ∉ t.cols → rowGet r' (key a) = rowGet r (key a)) := by
  induction l generalizing t with
  | nil =>
    intro r' hr'
    exact ⟨r', hr', fun c _ => rfl, fun a ha => absurd ha (List.not_mem_nil a),
           fun a ha => absurd ha (List.not_mem_nil a)⟩
  | cons a rest ih =>
    intro r' hr'
    rw [List.map_cons, List.nodup_cons] at hnd
    obtain ⟨hka, hndr⟩ := hnd
    rw [List.foldl_cons] at hr'
    obtain ⟨r1, hr1, hc1, hc2, hc3⟩ := ih (mapColIf t (key a) (opf a)) hndr r' hr'
    obtain ⟨r, hr, hcase⟩ := mapColIf_rows_elim t (key a) (opf a) r1 hr1
    have hcols1 : (mapColIf t (key a) (opf a)).cols = t.cols := mapColIf_cols t _ _
    rcases hcase with ⟨hmem, heq⟩ | ⟨hmem, heq⟩ <;> subst heq
    · refine ⟨r, hr, ?_, ?_, ?_⟩
      · intro c hc
        rw [List.map_cons, List.mem_cons] at hc
        push_neg at hc
        rw [hc1 c hc.2, rowGet_set_ne r (key a) c _ hc.1]
      · intro a' ha' hma'
        rcases List.mem_cons.mp ha' with rfl | ha'
        · rw [hc1 (key a') hka, rowGet_set_self]
        · have hne : key a' ≠ key a := by
            intro hh
            exact hka (hh ▸ List.mem_map_of_mem key ha')
          rw [hcols1] at hc2
          rw [hc2 a' ha' hma']
          unfold rowGetD
          rw [rowGet_set_ne r (key a) (key a') _ hne]
      · intro a' ha' hma'
        rcases List.mem_cons.mp ha' with rfl | ha'
        · exact absurd hmem hma'
        · have hne : key a' ≠ key a := by
            intro hh
            exact hka (hh ▸ List.mem_map_of_mem key ha')
          rw [hcols1] at hc3
          rw [hc3 a' ha' hma', rowGet_set_ne r (key a) (key a') _ hne]
    · refine ⟨r1, hr, ?_, ?_, ?_⟩
      · intro c hc
        rw [List.map_cons, List.mem_cons] at hc
        push_neg at hc
        exact hc1 c hc.2
      · intro a' ha' hma'
        rcases List.mem_cons.mp ha' with rfl | ha'
        · exact absurd hma' hmem
        · rw [hcols1] at hc2
          exact hc2 a' ha' hma'
      · intro a' ha' hma'
        rcases List.mem_cons.mp ha' with rfl | ha'
        · exact hc1 (key a') hka
        · rw [hcols1] at hc3
          exact hc3 a' ha' hma'

/- ### Lemmas about first-occurrence deduplication -/

theorem keepFirstBy_sublist (rs : List Row) (seen : List (Option Cell × Option Cell)) :
    (keepFirstBy rs seen).Sublist rs := by
  induction rs generalizing seen with
  | nil => simp [keepFirstBy]
  | cons r rest ih =>
    rw [keepFirstBy]
    split
    · exact (ih seen).trans (List.sublist_cons_self r rest)
    · exact (ih (dedupKey r :: seen)).cons₂ r

theorem keepFirstBy_key_notMem (rs : List Row) (seen : List (Option Cell × Option Cell))
    (r : Row) (h : r ∈ keepFirstBy rs seen) : dedupKey r ∉ seen := by
  induction rs generalizing seen with
  | nil => simp [keepFirstBy] at h
  | cons r0 rest ih =>
    rw [keepFirstBy] at h
    split at h
    · exact ih seen h
    · rcases List.mem_cons.mp h with rfl | h
      · assumption
      · have := ih (dedupKey r0 :: seen) h
        exact fun hc => this (List.mem_cons_of_mem _ hc)

theorem keepFirstBy_pairwise (rs : List Row) (seen : List (Option Cell × Option Cell)) :
    (keepFirstBy rs seen).Pairwise (fun a b => dedupKey a ≠ dedupKey b) := by
  induction rs generalizing seen with
  | nil => simp [keepFirstBy]
  | cons r rest ih =>
    rw [keepFirstBy]
    split
    · exact ih seen
    · refine List.Pairwise.cons ?_ (ih (dedupKey r :: seen))
      intro b hb hkb
      exact keepFirstBy_key_notMem rest (dedupKey r :: seen) b hb (hkb ▸ List.mem_cons_self _ _)

theorem keepFirstBy_mem_iff (rs : List Row) (seen : List (Option Cell × Option Cell)) (r : Row) :
    r ∈ keepFirstBy rs seen ↔
      dedupKey r ∉ seen ∧
      rs.find? (fun x => decide (dedupKey x = dedupKey r)) = some r := by
  induction rs generalizing seen with
  | nil => simp [keepFirstBy]
  | cons r0 rest ih =>
    rw [keepFirstBy]
    by_cases hk : dedupKey r0 = dedupKey r
    · rw [List.find?_cons_of_pos _ (by simp [hk])]
      split
      · rename_i hseen
        have hrs : dedupKey r ∈ seen := hk ▸ hseen
        constructor
        · intro h
          exact absurd hrs (keepFirstBy_key_notMem rest seen r h)
        · rintro ⟨hns, _⟩
          exact absurd hrs hns
      · rename_i hseen
        constructor
        · intro h
          rcases List.mem_cons.mp h with rfl | h
          · exact ⟨hseen, rfl⟩
          · have hns := keepFirstBy_key_notMem rest (dedupKey r0 :: seen) r h
            exact absurd (hk ▸ List.mem_cons_self _ _) hns
        · rintro ⟨hns, heq⟩
          have : r0 = r := by injection heq
          subst this
          exact List.mem_cons_self _ _
    · rw [List.find?_cons_of_neg _ (by simp [hk])]
      split
      · rename_i hseen
        exact ih seen
      · rename_i hseen
        constructor
        · intro h
          rcases List.mem_cons.mp h with rfl | h
          · exact absurd rfl hk
          · exact ((ih (dedupKey r0 :: seen)).mp h).imp
              (fun hns hc => hns (List.mem_cons_of_mem _ hc)) id
        · rintro ⟨hns, hfind⟩
          have hnotc : dedupKey r ∉ dedupKey r0 :: seen := by
            intro hc
            rcases List.mem_cons.mp hc with hc | hc
            · exact hk hc.symm
            · exact hns hc
          exact List.mem_cons_of_mem r0
            ((ih (dedupKey r0 :: seen)).mpr ⟨hnotc, hfind⟩)

theorem firstKeys_mem (l seen : List (Cell × Cell)) (k : Cell × Cell)
    (h : k ∈ firstKeys l seen) : k ∈ l := by
  induction l generalizing seen with
  | nil => simp [firstKeys] at h
  | cons k0 rest ih =>
    rw [firstKeys] at h
    split at h
    · exact List.mem_cons_of_mem _ (ih seen h)
    · rcases List.mem_cons.mp h with rfl | h
      · exact List.mem_cons_self _ _
      · exact List.mem_cons_of_mem _ (ih _ h)

/-- C6, counterexample: the claim says the Silver write function re-raises a
storage write failure, but `write_silver_dataset` catches the exception, logs
it, and returns normally — on a non-empty table with a failing storage write
it still returns success. -/
theorem c6_silver_write_swallows :
    write_silver_dataset silverWriteEx (Except.error "disk full") = Except.ok () ∧
    silverWriteEx.rows.isEmpty = false := by
  constructor <;> rfl

/-- C6 (amended): a storage write failure is re-raised by the Gold write
function (`write_gold_dataset` propagates the exception), but the Silver
write function (`write_silver_dataset`) catches it, logs it, and returns
normally without re-raising. -/
theorem c6_write_failure_propagation :
    (∀ (df : Table) (e : String), df.rows.isEmpty = false →
       (prepareGoldForWrite df).isOk = true →
       write_gold_dataset df (Except.error e) = Except.error e) ∧
    (∀ (df : Table) (storage : Except String Unit),
       write_silver_dataset df storage = Except.ok ()) := by
  constructor
  · intro df e hne hok
    unfold write_gold_dataset
    rw [hne]
    cases hp : prepareGoldForWrite df with
    | error e' =>
      rw [hp] at hok
      simp [Except.isOk, Except.toBool] at hok
    | ok p => simp
  · intro df storage
    unfold write_silver_dataset
    split
    · rfl
    · cases storage with
      | ok u => rfl
      | error e => rfl

/-- C6, witness: the amended claim applied to concrete non-empty tables and a
concrete failing storage write. -/
theorem c6_write_failure_propagation_witness :
    write_gold_dataset goldWriteEx (Except.error "disk full") = Except.error "disk full" ∧
    write_silver_dataset silverWriteEx (Except.error "disk full") = Except.ok () := by
  exact ⟨c6_write_failure_propagation.1 goldWriteEx "disk full" (by rfl) (by decide),
         c6_write_failure_propagation.2 silverWriteEx (Except.error "disk full")⟩

/- ### Lemmas about the Gold aggregation and schema enforcement -/

theorem municipioStep_cols (t : Table) : (municipioStep t).cols = t.cols :=
  mapColIf_cols t "municipio" muniCell

theorem roundingStep_cols (t : Table) : (roundingStep t).cols = t.cols := by
  unfold roundingStep
  exact foldMapColIf_cols (fun cd : String × Nat => cd.1)
    (fun cd : String × Nat => roundCell cd.2) roundingMap t

theorem amplitudeStep_cols_elim (t : Table) (c : String)
    (h : c ∈ (amplitudeStep t).cols) :
    c ∈ t.cols ∨ c = "amplitude_termica_diaria_c" := by
  unfold amplitudeStep at h
  split at h
  · rw [mapColNew] at h
    exact (mem_addCol t.cols c _).mp h
  · exact Or.inl h

theorem aggregate_cols_elim (t0 g : Table) (h : aggregate_to_gold t0 = Except.ok g) :
    ∀ c ∈ g.cols,
      c = "data_local" ∨ c = "municipio" ∨ c = "amplitude_termica_diaria_c" ∨
      ∃ src f, (c, src, f) ∈ allAggRules ∧ src ∈ t0.cols := by
  intro c hc
  unfold aggregate_to_gold at h
  split at h
  · split at h
    · injection h with h
      subst h
      simp at hc
    · split at h
      · injection h with h
        subst h
        rw [roundingStep_cols] at hc
        rcases amplitudeStep_cols_elim _ _ hc with hc | hc
        · rw [aggCore] at hc
          rcases List.mem_cons.mp hc with rfl | hc
          · exact Or.inl rfl
          · rcases List.mem_cons.mp hc with rfl | hc
            · exact Or.inr (Or.inl rfl)
            · obtain ⟨rl, hrl, hrlc⟩ := List.mem_map.mp hc
              rw [availableRules, List.mem_filter] at hrl
              refine Or.inr (Or.inr (Or.inr ⟨rl.2.1, rl.2.2, ?_, ?_⟩))
              · have : rl = (c, rl.2.1, rl.2.2) := by
                  rw [← hrlc]
                exact this ▸ hrl.1
              · have := of_decide_eq_true hrl.2
                rwa [municipioStep_cols] at this
        · exact Or.inr (Or.inr (Or.inl hc))
      · exact absurd h (by simp)
  · exact absurd h (by simp)

theorem addMissingFold_cols_mono (sch : List (String × Bool)) (t : Table) (c : String)
    (h : c ∈ t.cols) : c ∈ (addMissingFold sch t).cols := by
  induction sch generalizing t with
  | nil => exact h
  | cons cd rest ih =>
    rw [addMissingFold, List.foldl_cons]
    split
    · exact ih t h
    · exact ih _ ((mem_addCol t.cols c cd.1).mpr (Or.inl h))

theorem addMissingFold_cols_sch (sch : List (String × Bool)) (t : Table) (c : String)
    (h : c ∈ sch.map Prod.fst) : c ∈ (addMissingFold sch t).cols := by
  induction sch generalizing t with
  | nil => simp at h
  | cons cd rest ih =>
    rw [addMissingFold, List.foldl_cons]
    rw [List.map_cons, List.mem_cons] at h
    rcases h with rfl | h
    · split
      · rename_i hmem
        exact addMissingFold_cols_mono rest t cd.1 hmem
      · exact addMissingFold_cols_mono rest _ cd.1
          ((mem_addCol t.cols cd.1 cd.1).mpr (Or.inr rfl))
    · split
      · exact ih t h
      · exact ih _ h

theorem addMissingFold_get_pres (sch : List (String × Bool)) (t : Table) (c : String)
    (hns : c ∉ sch.map Prod.fst)
    (hall : ∀ r ∈ t.rows, rowGet r c = some Cell.na) :
    ∀ r' ∈ (addMissingFold sch t).rows, rowGet r' c = some Cell.na := by
  induction sch generalizing t with
  | nil => exact hall
  | cons cd rest ih =>
    rw [List.map_cons, List.mem_cons] at hns
    push_neg at hns
    rw [addMissingFold, List.foldl_cons]
    split
    · exact ih t hns.2 hall
    · refine ih _ hns.2 ?_
      intro r' hr'
      rw [addNullCol] at hr'
      obtain ⟨r, hr, rfl⟩ := List.mem_map.mp hr'
      rw [rowGet_set_ne r cd.1 c Cell.na hns.1]
      exact hall r hr

theorem addMissingFold_get_na (sch : List (String × Bool)) (t : Table) (c : String)
    (hnc : c ∉ t.cols) (hcs : c ∈ sch.map Prod.fst) (hnd : (sch.map Prod.fst).Nodup) :
    ∀ r' ∈ (addMissingFold sch t).rows, rowGet r' c = some Cell.na := by
  induction sch generalizing t with
  | nil => simp at hcs
  | cons cd rest ih =>
    rw [List.map_cons, List.nodup_cons] at hnd
    rw [List.map_cons, List.mem_cons] at hcs
    rw [addMissingFold, List.foldl_cons]
    rcases hcs with rfl | hcs
    · split
      · rename_i hmem
        exact absurd hmem hnc
      · refine addMissingFold_get_pres rest _ cd.1 hnd.1 ?_
        intro r' hr'
        rw [addNullCol] at hr'
        obtain ⟨r, hr, rfl⟩ := List.mem_map.mp hr'
        exact rowGet_set_self r cd.1 Cell.na
    · have hcd : c ≠ cd.1 := by
        intro hh
        exact hnd.1 (hh ▸ hcs)
      split
      · exact ih t hnc hcs hnd.2
      · refine ih _ ?_ hcs hnd.2
        rw [addNullCol]
        intro hmem
        rcases (mem_addCol t.cols c cd.1).mp hmem with hmem | hmem
        · exact hnc hmem
        · exact hcd hmem

theorem decimalFold_cols (t : Table) : (decimalFold t).cols = t.cols := by
  unfold decimalFold
  exact foldMapColIf_cols (fun cd : String × Bool => cd.1)
    (fun _ : String × Bool => decCell) (goldSchema.filter (fun cd => cd.2)) t

theorem goldSchemaCols_eq : goldSchemaCols = goldSchema.map Prod.fst := rfl

theorem projectStep_cols (t : Table) : (projectStep t).cols = goldOrder t := rfl

theorem projectStep_rows (t : Table) :
    (projectStep t).rows = t.rows.map (fun r => projectRow r (goldOrder t)) := rfl

theorem prepareGold_spec (t p : Table) (h : prepareGoldForWrite t = Except.ok p) :
    p.cols = goldSchemaCols ∧
    ∀ c ∈ goldSchemaCols, c ∉ t.cols → c ≠ "ano" → c ≠ "mes" →
      ∀ r ∈ p.rows, rowGet r c = some Cell.na := by
  unfold prepareGoldForWrite at h
  split at h
  case isFalse => exact absurd h (by simp)
  case isTrue hdl =>
  injection h with h
  subst h
  have hsch : ∀ c ∈ goldSchemaCols, c ∈ (decimalFold (addMissingFold goldSchema (anoMesStep t))).cols := by
    intro c hc
    rw [decimalFold_cols]
    exact addMissingFold_cols_sch goldSchema (anoMesStep t) c (goldSchemaCols_eq ▸ hc)
  have horder : goldOrder (decimalFold (addMissingFold goldSchema (anoMesStep t))) = goldSchemaCols := by
    unfold goldOrder
    apply List.filter_eq_self.mpr
    intro c hc
    exact decide_eq_true (hsch c hc)
  refine ⟨?_, ?_⟩
  · rw [projectStep_cols]
    exact horder
  · intro c hc hnt hano hmes r hr
    rw [projectStep_rows] at hr
    obtain ⟨r4, hr4, rfl⟩ := List.mem_map.mp hr
    rw [rowGet_project, horder, if_pos hc]
    have hnc2 : c ∉ (anoMesStep t).cols := by
      unfold anoMesStep
      rw [mapColNew, mapColNew]
      intro hmem
      rcases (mem_addCol _ c "mes").mp hmem with hmem | hmem
      · rcases (mem_addCol _ c "ano").mp hmem with hmem | hmem
        · exact hnt hmem
        · exact hano hmem
      · exact hmes hmem
    have h3 : ∀ r3 ∈ (addMissingFold goldSchema (anoMesStep t)).rows, rowGet r3 c = some Cell.na :=
      addMissingFold_get_na goldSchema (anoMesStep t) c hnc2 (goldSchemaCols_eq ▸ hc) (by decide)
    have hct3 : c ∈ (addMissingFold goldSchema (anoMesStep t)).cols :=
      addMissingFold_cols_sch goldSchema (anoMesStep t) c (goldSchemaCols_eq ▸ hc)
    obtain ⟨r3, hr3, hp1, hp2, _⟩ :=
      foldMapColIf_rows (fun cd : String × Bool => cd.1) (fun _ : String × Bool => decCell)
        (goldSchema.filter (fun cd => cd.2)) (addMissingFold goldSchema (anoMesStep t))
        (by decide) r4 hr4
    have hget4 : rowGet r4 c = some Cell.na := by
      by_cases hdec : c ∈ (goldSchema.filter (fun cd => cd.2)).map (fun cd : String × Bool => cd.1)
      · obtain ⟨cd, hcd, hcdc⟩ := List.mem_map.mp hdec
        subst hcdc
        rw [hp2 cd hcd hct3]
        unfold rowGetD
        rw [h3 r3 hr3]
        rfl
      · rw [hp1 c hdec]
        exact h3 r3 hr3
    unfold rowGetD
    rw [hget4]
    rfl

set_option maxRecDepth 400000 in
unseal Rat.mul Rat.inv Rat.add Rat.sub in
/-- C4, counterexample: the claim says that when the Silver input lacks the
precipitation source column, the Gold output table omits
`precipitacao_total_diaria_mm` altogether; in fact the written Gold table
carries the column (`true` below), merely with every value absent. -/
theorem c4_written_gold_keeps_precip_column :
    "precipitacao_total_horario_mm" ∉ silverNoPrecip.cols ∧
    ((goldPipeline silverNoPrecip (Except.ok ())).map
      (fun res => res.map (fun out =>
        (decide ("precipitacao_total_diaria_mm" ∈ out.cols),
         out.rows.map (fun r => rowGet r "precipitacao_total_diaria_mm"))))) =
      Except.ok (some (true, [some Cell.na])) := by
  exact ⟨by decide, by decide⟩

/-- C4 (amended): when the Silver input lacks the precipitation source
column, the aggregated Gold table (before schema enforcement) omits
`precipitacao_total_diaria_mm`; the schema-enforcement step of
`write_gold_dataset` then re-adds it, so the written Gold table carries the
column with every value absent. -/
theorem c4_missing_precip_column :
    ∀ (t g : Table), "precipitacao_total_horario_mm" ∉ t.cols →
      aggregate_to_gold t = Except.ok g →
      "precipitacao_total_diaria_mm" ∉ g.cols ∧
      ∀ p, prepareGoldForWrite g = Except.ok p →
        "precipitacao_total_diaria_mm" ∈ p.cols ∧
        ∀ r ∈ p.rows, rowGet r "precipitacao_total_diaria_mm" = some Cell.na := by
  intro t g hnp hagg
  have hng : "precipitacao_total_diaria_mm" ∉ g.cols := by
    intro hc
    rcases aggregate_cols_elim t g hagg _ hc with h | h | h | ⟨src, f, hmem, hsrc⟩
    · exact absurd h (by decide)
    · exact absurd h (by decide)
    · exact absurd h (by decide)
    · have hsrc' : src = "precipitacao_total_horario_mm" := by
        simp [allAggRules] at hmem
        exact hmem.1
      exact hnp (hsrc' ▸ hsrc)
  refine ⟨hng, ?_⟩
  intro p hp
  obtain ⟨hcols, hna⟩ := prepareGold_spec g p hp
  refine ⟨?_, ?_⟩
  · rw [hcols]
    decide
  · intro r hr
    exact hna "precipitacao_total_diaria_mm" (by decide) hng (by decide) (by decide) r hr

set_option maxRecDepth 400000 in
unseal Rat.mul Rat.inv Rat.add Rat.sub in
/-- C4, witness: the amended claim applied to the concrete tables. -/
theorem c4_missing_precip_column_witness :
    "precipitacao_total_diaria_mm" ∉ c4AggT.cols ∧
    "precipitacao_total_diaria_mm" ∈ c4PrepT.cols ∧
    rowGet (c4PrepT.rows.headD []) "precipitacao_total_diaria_mm" = some Cell.na := by
  obtain ⟨h1, h2⟩ := c4_missing_precip_column c4SilverT c4AggT (by decide) (by decide)
  obtain ⟨h3, h4⟩ := h2 c4PrepT (by decide)
  exact ⟨h1, h3, h4 (c4PrepT.rows.headD []) (by decide)⟩

set_option maxRecDepth 400000 in
/-- C5, counterexample: `ano` is a declared schema column absent after
aggregation, yet the write step adds it as a computed partition key
(here `2025`), not as an all-absent column, contradicting the claim that
every absent schema column is added all-null. -/
theorem c5_ano_added_non_null :
    "ano" ∈ goldSchemaCols ∧ "ano" ∉ c5AggT.cols ∧
    (prepareGoldForWrite c5AggT).map (fun p => p.rows.map (fun r => rowGet r "ano")) =
      Except.ok [some (Cell.num 2025)] ∧
    Cell.num 2025 ≠ Cell.na := by
  exact ⟨by decide, by decide, by decide, by decide⟩

/-- C5 (amended): for every non-empty Gold input table carrying `data_local`,
the written table carries exactly the declared schema columns in the declared
order, and every declared column absent from the input — other than the
partition keys `ano` and `mes`, which are derived from `data_local` — is
added as an all-absent column. -/
theorem c5_schema_enforcement :
    ∀ (t : Table), t.rows.isEmpty = false → "data_local" ∈ t.cols →
      ∃ p, write_gold_dataset t (Except.ok ()) = Except.ok (some p) ∧
        p.cols = goldSchemaCols ∧
        ∀ c ∈ goldSchemaCols, c ∉ t.cols → c ≠ "ano" → c ≠ "mes" →
          ∀ r ∈ p.rows, rowGet r c = some Cell.na := by
  intro t hne hdl
  have hp : prepareGoldForWrite t =
      Except.ok (projectStep (decimalFold (addMissingFold goldSchema (anoMesStep t)))) := by
    unfold prepareGoldForWrite
    rw [if_pos hdl]
  refine ⟨projectStep (decimalFold (addMissingFold goldSchema (anoMesStep t))), ?_, ?_, ?_⟩
  · unfold write_gold_dataset
    rw [hne, hp]
    rfl
  · exact (prepareGold_spec t _ hp).1
  · exact (prepareGold_spec t _ hp).2

set_option maxRecDepth 400000 in
unseal Rat.mul Rat.inv Rat.add Rat.sub in
/-- C5, witness: the amended claim applied to `c5AggT`; the written table is
`c5PrepT`, whose columns are exactly the declared schema and whose missing
`municipio` column is all-absent. -/
theorem c5_schema_enforcement_witness :
    c5PrepT.cols = goldSchemaCols ∧
    rowGet (c5PrepT.rows.headD []) "municipio" = some Cell.na := by
  have hconc : write_gold_dataset c5AggT (Except.ok ()) = Except.ok (some c5PrepT) := by decide
  obtain ⟨p, hw, hcols, hna⟩ := c5_schema_enforcement c5AggT (by decide) (by decide)
  rw [hw] at hconc
  injection hconc with hconc
  injection hconc with hconc
  subst hconc
  exact ⟨hcols,
    hna "municipio" (by decide) (by decide) (by decide) (by decide)
      (c5PrepT.rows.headD []) (by decide)⟩

/- ### Lemmas about the Silver pipeline steps -/

theorem foldMapColIf_pres {α : Type} (key : α → String) (opf : α → Cell → Cell)
    (l : List α) (t : Table) (c : String) (hc : c ∉ l.map key) :
    ∀ r' ∈ (l.foldl (fun a b => mapColIf a (key b) (opf b)) t).rows,
      ∃ r ∈ t.rows, rowGet r' c = rowGet r c := by
  induction l generalizing t with
  | nil => exact fun r' hr' => ⟨r', hr', rfl⟩
  | cons a rest ih =>
    intro r' hr'
    rw [List.map_cons, List.mem_cons] at hc
    push_neg at hc
    rw [List.foldl_cons] at hr'
    obtain ⟨r1, hr1, hg1⟩ := ih (mapColIf t (key a) (opf a)) hc.2 r' hr'
    obtain ⟨r, hr, hcase⟩ := mapColIf_rows_elim t (key a) (opf a) r1 hr1
    rcases hcase with ⟨_, heq⟩ | ⟨_, heq⟩ <;> subst heq
    · exact ⟨r, hr, by rw [hg1, rowGet_set_ne r (key a) c _ hc.1]⟩
    · exact ⟨r1, hr, by rw [hg1]⟩

theorem timestampStep_ok (t t' : Table) (n : Nat) (h : timestampStep t = Except.ok (t', n)) :
    "hora_utc" ∈ t.cols ∧ "data" ∈ t.cols ∧
    t'.cols = addCol (addCol t.cols "timestamp_utc") "timestamp_local" ∧
    t'.rows = (t.rows.filter (fun r => (silverRowTs r).isSome)).map tsTransformRow ∧
    n = t.rows.length - t'.rows.length := by
  unfold timestampStep at h
  split at h
  · rename_i hcols
    injection h with h
    injection h with h1 h2
    subst h1
    exact ⟨hcols.1, hcols.2, rfl, rfl, h2.symm⟩
  · exact absurd h (by simp)

theorem tsTransformRow_utc (r : Row) :
    rowGet (tsTransformRow r) "timestamp_utc" = some (optTime (silverRowTs r)) := by
  unfold tsTransformRow
  rw [rowGet_set_ne _ _ _ _ (by decide), rowGet_set_self]

theorem tsTransformRow_local (r : Row) :
    rowGet (tsTransformRow r) "timestamp_local" =
      some (optTime ((silverRowTs r).map DT.toLocal)) := by
  unfold tsTransformRow
  rw [rowGet_set_self]

theorem tsTransformRow_other (r : Row) (c : String)
    (h1 : c ≠ "hora_utc") (h2 : c ≠ "timestamp_utc") (h3 : c ≠ "timestamp_local") :
    rowGet (tsTransformRow r) c = rowGet r c := by
  unfold tsTransformRow
  rw [rowGet_set_ne _ _ _ _ h3, rowGet_set_ne _ _ _ _ h2, rowGet_set_ne _ _ _ _ h1]

theorem dedupStep_ok (t t' : Table) (h : dedupStep t = Except.ok t') :
    "timestamp_local" ∈ t.cols ∧ "source_file" ∈ t.cols ∧
    t'.cols = t.cols ∧ t'.rows = keepFirstBy t.rows [] := by
  unfold dedupStep at h
  split at h
  · rename_i hcols
    injection h with h
    subst h
    exact ⟨hcols.1, hcols.2, rfl, rfl⟩
  · exact absurd h (by simp)

theorem partitionStep_cols (t : Table) :
    (partitionStep t).cols = addCol (addCol t.cols "partition_year") "partition_month" := rfl

theorem partitionStep_rows (t : Table) :
    ∀ r' ∈ (partitionStep t).rows, ∃ r ∈ t.rows,
      (∀ c, c ≠ "partition_year" → c ≠ "partition_month" → rowGet r' c = rowGet r c) ∧
      rowGet r' "partition_year" =
        some (match rowGetD r "timestamp_utc" with
              | Cell.time dt => Cell.num (dt.year : ℚ)
              | _ => Cell.na) ∧
      rowGet r' "partition_month" =
        some (match rowGetD r "timestamp_utc" with
              | Cell.time dt => Cell.num (dt.month : ℚ)
              | _ => Cell.na) := by
  intro r' hr'
  unfold partitionStep mapColNew at hr'
  simp only [Table.rows] at hr'
  obtain ⟨r1, hr1, rfl⟩ := List.mem_map.mp hr'
  obtain ⟨r, hr, rfl⟩ := List.mem_map.mp hr1
  refine ⟨r, hr, ?_, ?_, ?_⟩
  · intro c hpy hpm
    rw [rowGet_set_ne _ _ _ _ hpm, rowGet_set_ne _ _ _ _ hpy]
  · rw [rowGet_set_ne _ _ _ _ (by decide), rowGet_set_self]
  · rw [rowGet_set_self]
    have : rowGetD (rowSet r "partition_year"
        (match rowGetD r "timestamp_utc" with
         | Cell.time dt => Cell.num (dt.year : ℚ)
         | _ => Cell.na)) "timestamp_utc" = rowGetD r "timestamp_utc" := by
      unfold rowGetD
      rw [rowGet_set_ne _ _ _ _ (by decide)]
    rw [this]

theorem dropColsStep_rows (t : Table) :
    ∀ r' ∈ (dropColsStep t).rows, ∃ r ∈ t.rows, r' = rowDrop r silverDroppedCols := by
  intro r' hr'
  unfold dropColsStep at hr'
  simp only [Table.rows] at hr'
  obtain ⟨r, hr, rfl⟩ := List.mem_map.mp hr'
  exact ⟨r, hr, rfl⟩

theorem process_eq_of_steps (t t2 t4 : Table) (n : Nat)
    (h1 : timestampStep (selectStep (renameStep t)) = Except.ok (t2, n))
    (h2 : dedupStep (qualityStep (coerceStep t2)) = Except.ok t4) :
    process_bronze_to_silver t = Except.ok (dropColsStep (partitionStep t4), n) := by
  unfold process_bronze_to_silver
  simp only [h1, h2]

theorem process_ok (t s : Table) (n : Nat)
    (h : process_bronze_to_silver t = Except.ok (s, n)) :
    ∃ t2 t4 : Table,
      timestampStep (selectStep (renameStep t)) = Except.ok (t2, n) ∧
      dedupStep (qualityStep (coerceStep t2)) = Except.ok t4 ∧
      s = dropColsStep (partitionStep t4) := by
  unfold process_bronze_to_silver at h
  split at h
  · exact absurd h (by simp)
  · rename_i t2 dropped hts
    split at h
    · exact absurd h (by simp)
    · rename_i t4 hdd
      injection h with h
      injection h with h1 h2
      subst h1 h2
      exact ⟨t2, t4, hts, hdd, rfl⟩

theorem clampCell_sound (lo hi : ℚ) (c : Cell) (q : ℚ)
    (h : clampCell lo hi c = Cell.num q) : lo ≤ q ∧ q ≤ hi := by
  unfold clampCell at h
  split at h
  · rename_i q0
    split at h
    · rename_i hr
      injection h with h
      subst h
      exact hr
    · exact absurd h (by simp)
  · rename_i hne
    cases c with
    | num q0 => exact absurd rfl (hne q0)
    | str s => exact absurd h (by simp)
    | time t => exact absurd h (by simp)
    | date d => exact absurd h (by simp)
    | na => exact absurd h (by simp)

theorem precipCell_sound (c : Cell) (q : ℚ)
    (h : precipCell c = Cell.num q) : 0 ≤ q := by
  unfold precipCell at h
  split at h
  · rename_i q0
    split at h
    · exact absurd h (by simp)
    · rename_i hr
      injection h with h
      subst h
      exact le_of_not_lt hr
  · rename_i hne
    cases c with
    | num q0 => exact absurd rfl (hne q0)
    | str s => exact absurd h (by simp)
    | time t => exact absurd h (by simp)
    | date d => exact absurd h (by simp)
    | na => exact absurd h (by simp)

theorem coerceStep_cols (t : Table) : (coerceStep t).cols = t.cols := by
  unfold coerceStep
  exact foldMapColIf_cols (fun c : String => c) (fun _ : String => toNumericCell) numericCols t

theorem qualityStep_cols (t : Table) : (qualityStep t).cols = t.cols := by
  unfold qualityStep
  rw [foldMapColIf_cols (fun c : String => c) (fun _ : String => clampCell (-20) 50),
      mapColIf_cols, mapColIf_cols]

theorem coerceStep_rows (t : Table) :
    ∀ r' ∈ (coerceStep t).rows, ∃ r ∈ t.rows,
      ∀ c, c ∉ numericCols → rowGet r' c = rowGet r c := by
  intro r' hr'
  obtain ⟨r, hr, hg, _, _⟩ :=
    foldMapColIf_rows (fun c : String => c) (fun _ : String => toNumericCell) numericCols t
      (by decide) r' hr'
  refine ⟨r, hr, fun c hc => hg c ?_⟩
  simpa using hc

theorem qualityStep_preserves (t : Table) (c : String)
    (h1 : c ≠ "umidade_relativa_ar_horaria_percent")
    (h2 : c ≠ "precipitacao_total_horario_mm")
    (h3 : strContains c "temperatura" = false) :
    ∀ r' ∈ (qualityStep t).rows, ∃ r ∈ t.rows, rowGet r' c = rowGet r c := by
  intro r' hr'
  unfold qualityStep at hr'
  obtain ⟨r2, hr2, hg2⟩ :=
    foldMapColIf_pres (fun c : String => c) (fun _ : String => clampCell (-20) 50) _ _ c
      (by
        intro hc
        simp only [List.map_id'] at hc
        rw [List.mem_filter] at hc
        rw [hc.2] at h3
        exact absurd h3 (by simp)) r' hr'
  obtain ⟨r1, hr1, hcase1⟩ := mapColIf_rows_elim _ _ precipCell r2 hr2
  obtain ⟨r, hr, hcase0⟩ := mapColIf_rows_elim _ _ (clampCell 0 100) r1 hr1
  refine ⟨r, hr, ?_⟩
  rw [hg2]
  rcases hcase1 with ⟨_, heq⟩ | ⟨_, heq⟩ <;> subst heq
  · rw [rowGet_set_ne _ _ _ _ h2]
    rcases hcase0 with ⟨_, heq⟩ | ⟨_, heq⟩ <;> subst heq
    · rw [rowGet_set_ne _ _ _ _ h1]
    · rfl
  · rcases hcase0 with ⟨_, heq⟩ | ⟨_, heq⟩ <;> subst heq
    · rw [rowGet_set_ne _ _ _ _ h1]
    · rfl

theorem qualityStep_hum (t : Table)
    (hm : "umidade_relativa_ar_horaria_percent" ∈ t.cols) :
    ∀ r' ∈ (qualityStep t).rows, ∀ q : ℚ,
      rowGet r' "umidade_relativa_ar_horaria_percent" = some (Cell.num q) →
      0 ≤ q ∧ q ≤ 100 := by
  intro r' hr' q hq
  unfold qualityStep at hr'
  obtain ⟨r2, hr2, hg2⟩ :=
    foldMapColIf_pres (fun c : String => c) (fun _ : String => clampCell (-20) 50) _ _
      "umidade_relativa_ar_horaria_percent"
      (by
        intro hc
        simp only [List.map_id'] at hc
        rw [List.mem_filter] at hc
        exact absurd hc.2 (by decide)) r' hr'
  obtain ⟨r1, hr1, hcase1⟩ := mapColIf_rows_elim _ _ precipCell r2 hr2
  have hg1 : rowGet r2 "umidade_relativa_ar_horaria_percent" =
      rowGet r1 "umidade_relativa_ar_horaria_percent" := by
    rcases hcase1 with ⟨_, heq⟩ | ⟨_, heq⟩ <;> subst heq
    · exact rowGet_set_ne _ _ _ _ (by decide)
    · rfl
  obtain ⟨r, hr, hcase0⟩ := mapColIf_rows_elim _ _ (clampCell 0 100) r1 hr1
  rcases hcase0 with ⟨_, heq⟩ | ⟨hmem, _⟩
  · subst heq
    rw [hg2, hg1, rowGet_set_self] at hq
    injection hq with hq
    exact clampCell_sound 0 100 _ q hq
  · exact absurd hm hmem

theorem qualityStep_precip (t : Table)
    (hm : "precipitacao_total_horario_mm" ∈ t.cols) :
    ∀ r' ∈ (qualityStep t).rows, ∀ q : ℚ,
      rowGet r' "precipitacao_total_horario_mm" = some (Cell.num q) → 0 ≤ q := by
  intro r' hr' q hq
  unfold qualityStep at hr'
  obtain ⟨r2, hr2, hg2⟩ :=
    foldMapColIf_pres (fun c : String => c) (fun _ : String => clampCell (-20) 50) _ _
      "precipitacao_total_horario_mm"
      (by
        intro hc
        simp only [List.map_id'] at hc
        rw [List.mem_filter] at hc
        exact absurd hc.2 (by decide)) r' hr'
  obtain ⟨r1, hr1, hcase1⟩ := mapColIf_rows_elim _ _ precipCell r2 hr2
  rcases hcase1 with ⟨_, heq⟩ | ⟨hmem, _⟩
  · subst heq
    rw [hg2, rowGet_set_self] at hq
    injection hq with hq
    exact precipCell_sound _ q hq
  · rw [mapColIf_cols] at hmem
    exact absurd hm hmem

theorem qualityStep_temp (t : Table) (hnd : t.cols.Nodup) (c : String)
    (hc : c ∈ t.cols) (hsub : strContains c "temperatura" = true) :
    ∀ r' ∈ (qualityStep t).rows, ∀ q : ℚ,
      rowGet r' c = some (Cell.num q) → -20 ≤ q ∧ q ≤ 50 := by
  intro r' hr' q hq
  unfold qualityStep at hr'
  have hcols2 : (mapColIf (mapColIf t "umidade_relativa_ar_horaria_percent" (clampCell 0 100))
      "precipitacao_total_horario_mm" precipCell).cols = t.cols := by
    rw [mapColIf_cols, mapColIf_cols]
  have hcl : c ∈ (mapColIf (mapColIf t "umidade_relativa_ar_horaria_percent" (clampCell 0 100))
      "precipitacao_total_horario_mm" precipCell).cols.filter
        (fun c => strContains c "temperatura") := by
    rw [List.mem_filter, hcols2]
    exact ⟨hc, hsub⟩
  obtain ⟨r2, hr2, _, hg2, _⟩ :=
    foldMapColIf_rows (fun c : String => c) (fun _ : String => clampCell (-20) 50) _ _
      (by
        simp only [List.map_id']
        rw [hcols2]
        exact hnd.filter _) r' hr'
  have := hg2 c hcl (by rw [hcols2] at hcl ⊢; exact (List.mem_filter.mp hcl).1)
  rw [this] at hq
  injection hq with hq
  exact clampCell_sound (-20) 50 _ q hq

theorem dedupKey_set_partition (r : Row) (v1 v2 : Cell) :
    dedupKey (rowSet (rowSet r "partition_year" v1) "partition_month" v2) = dedupKey r := by
  unfold dedupKey
  rw [rowGet_set_ne _ _ _ _ (by decide), rowGet_set_ne _ _ _ _ (by decide),
      rowGet_set_ne _ _ _ _ (by decide), rowGet_set_ne _ _ _ _ (by decide)]

theorem dedupKey_drop (r : Row) :
    dedupKey (rowDrop r silverDroppedCols) = dedupKey r := by
  unfold dedupKey
  rw [rowGet_drop_notMem _ _ _ (by decide), rowGet_drop_notMem _ _ _ (by decide)]

/-- C2: after deduplication, the pair `(timestamp_local, source_file)` is
unique among the Silver output rows, and the row kept for each key is exactly
the first row carrying that key in input order, with its cell values
retained. -/
theorem c2_dedup_unique_first :
    (∀ (t s : Table) (n : Nat), process_bronze_to_silver t = Except.ok (s, n) →
       s.rows.Pairwise (fun a b => dedupKey a ≠ dedupKey b)) ∧
    (∀ (t t' : Table), dedupStep t = Except.ok t' →
       t'.rows.Sublist t.rows ∧
       ∀ r : Row, r ∈ t'.rows ↔
         r ∈ t.rows ∧
         t.rows.find? (fun x => decide (dedupKey x = dedupKey r)) = some r) := by
  constructor
  · intro t s n h
    obtain ⟨t2, t4, _, hdd, hs⟩ := process_ok t s n h
    obtain ⟨_, _, _, hrows⟩ := dedupStep_ok _ _ hdd
    have hpw : t4.rows.Pairwise (fun a b => dedupKey a ≠ dedupKey b) := by
      rw [hrows]
      exact keepFirstBy_pairwise _ []
    subst hs
    unfold dropColsStep partitionStep mapColNew
    simp only [Table.rows, List.map_map]
    refine List.Pairwise.map _ ?_ hpw
    intro a b hab
    simp only [Function.comp]
    rw [dedupKey_drop, dedupKey_drop, dedupKey_set_partition, dedupKey_set_partition]
    exact hab
  · intro t t' h
    obtain ⟨_, _, _, hrows⟩ := dedupStep_ok _ _ h
    rw [hrows]
    refine ⟨keepFirstBy_sublist _ [], ?_⟩
    intro r
    rw [keepFirstBy_mem_iff]
    constructor
    · rintro ⟨_, hfind⟩
      exact ⟨List.mem_of_find?_eq_some hfind, hfind⟩
    · rintro ⟨_, hfind⟩
      exact ⟨List.not_mem_nil _, hfind⟩

set_option maxRecDepth 400000 in
unseal Rat.mul Rat.inv Rat.add Rat.sub in
/-- C2, witness: the uniqueness and keep-first properties applied to concrete
tables with duplicate keys. -/
theorem c2_dedup_unique_first_witness :
    c2Silver.rows.Pairwise (fun a b => dedupKey a ≠ dedupKey b) ∧
    c2DedupOut.rows.Sublist c2DedupIn.rows := by
  refine ⟨c2_dedup_unique_first.1 c2Bronze c2Silver 0 (by decide), ?_⟩
  exact (c2_dedup_unique_first.2 c2DedupIn c2DedupOut (by decide)).1

theorem foldMapColIf_presAll {α : Type} (key : α → String) (opf : α → Cell → Cell)
    (l : List α) (t : Table) :
    ∀ r' ∈ (l.foldl (fun a b => mapColIf a (key b) (opf b)) t).rows,
      ∃ r ∈ t.rows, ∀ c, c ∉ l.map key → rowGet r' c = rowGet r c := by
  induction l generalizing t with
  | nil => exact fun r' hr' => ⟨r', hr', fun c _ => rfl⟩
  | cons a rest ih =>
    intro r' hr'
    rw [List.foldl_cons] at hr'
    obtain ⟨r1, hr1, hg1⟩ := ih (mapColIf t (key a) (opf a)) r' hr'
    obtain ⟨r, hr, hcase⟩ := mapColIf_rows_elim t (key a) (opf a) r1 hr1
    rcases hcase with ⟨_, heq⟩ | ⟨_, heq⟩ <;> subst heq
    · refine ⟨r, hr, fun c hc => ?_⟩
      rw [List.map_cons, List.mem_cons] at hc
      push_neg at hc
      rw [hg1 c hc.2, rowGet_set_ne r (key a) c _ hc.1]
    · refine ⟨r1, hr, fun c hc => ?_⟩
      rw [List.map_cons, List.mem_cons] at hc
      push_neg at hc
      exact hg1 c hc.2

theorem qualityStep_preservesAll (t : Table) :
    ∀ r' ∈ (qualityStep t).rows, ∃ r ∈ t.rows,
      ∀ c, c ≠ "umidade_relativa_ar_horaria_percent" →
        c ≠ "precipitacao_total_horario_mm" →
        strContains c "temperatura" = false →
        rowGet r' c = rowGet r c := by
  intro r' hr'
  unfold qualityStep at hr'
  obtain ⟨r2, hr2, hg2⟩ :=
    foldMapColIf_presAll (fun c : String => c) (fun _ : String => clampCell (-20) 50) _ _ r' hr'
  obtain ⟨r1, hr1, hcase1⟩ := mapColIf_rows_elim _ _ precipCell r2 hr2
  obtain ⟨r, hr, hcase0⟩ := mapColIf_rows_elim _ _ (clampCell 0 100) r1 hr1
  refine ⟨r, hr, fun c h1 h2 h3 => ?_⟩
  have hnotemp : c ∉ List.map (fun c : String => c)
      ((mapColIf (mapColIf t "umidade_relativa_ar_horaria_percent" (clampCell 0 100))
        "precipitacao_total_horario_mm" precipCell).cols.filter
          (fun c => strContains c "temperatura")) := by
    intro hc
    simp only [List.map_id'] at hc
    rw [List.mem_filter] at hc
    rw [hc.2] at h3
    exact absurd h3 (by simp)
  rw [hg2 c hnotemp]
  rcases hcase1 with ⟨_, heq⟩ | ⟨_, heq⟩ <;> subst heq
  · rw [rowGet_set_ne _ _ _ _ h2]
    rcases hcase0 with ⟨_, heq⟩ | ⟨_, heq⟩ <;> subst heq
    · rw [rowGet_set_ne _ _ _ _ h1]
    · rfl
  · rcases hcase0 with ⟨_, heq⟩ | ⟨_, heq⟩ <;> subst heq
    · rw [rowGet_set_ne _ _ _ _ h1]
    · rfl

theorem coerceStep_rowsAll (t : Table) :
    ∀ r' ∈ (coerceStep t).rows, ∃ r ∈ t.rows,
      ∀ c, c ∉ numericCols → rowGet r' c = rowGet r c := by
  intro r' hr'
  unfold coerceStep at hr'
  obtain ⟨r, hr, hg⟩ :=
    foldMapColIf_presAll (fun c : String => c) (fun _ : String => toNumericCell)
      numericCols t r' hr'
  refine ⟨r, hr, fun c hc => hg c ?_⟩
  simpa using hc

/- ### C7: partition keys come from the UTC instant -/

/-- Every row surviving the timestamp, coercion and quality steps carries a
parsed UTC instant and its timezone-converted counterpart. -/
theorem silver_rows_timestamps (t2 : Table)
    (h2 : ∀ r2 ∈ t2.rows, ∃ dt : DT,
      rowGet r2 "timestamp_utc" = some (Cell.time dt) ∧
      rowGet r2 "timestamp_local" = some (Cell.time dt.toLocal)) :
    ∀ r3 ∈ (qualityStep (coerceStep t2)).rows, ∃ dt : DT,
      rowGet r3 "timestamp_utc" = some (Cell.time dt) ∧
      rowGet r3 "timestamp_local" = some (Cell.time dt.toLocal) := by
  intro r3 hr3
  obtain ⟨rc, hrc, hgq⟩ := qualityStep_preservesAll _ r3 hr3
  obtain ⟨r2, hr2, hgc⟩ := coerceStep_rowsAll _ rc hrc
  obtain ⟨dt, hu, hl⟩ := h2 r2 hr2
  refine ⟨dt, ?_, ?_⟩
  · rw [hgq _ (by decide) (by decide) (by decide), hgc _ (by decide), hu]
  · rw [hgq _ (by decide) (by decide) (by decide), hgc _ (by decide), hl]

set_option maxRecDepth 400000 in
unseal Rat.mul Rat.inv Rat.add Rat.sub in
/-- C7: `partition_year` and `partition_month` of every retained Silver row
are the year and month of the parsed UTC instant, while `timestamp_local` is
its timezone-converted counterpart; concretely, for a UTC instant on
2025-03-01 whose local counterpart falls on 2025-02-28, the partition month
is the UTC month 3, not the local month 2. -/
theorem c7_partition_from_utc :
    (∀ (t s : Table) (n : Nat), process_bronze_to_silver t = Except.ok (s, n) →
       ∀ r ∈ s.rows, ∃ dt : DT,
         rowGet r "timestamp_local" = some (Cell.time dt.toLocal) ∧
         rowGet r "partition_year" = some (Cell.num (dt.year : ℚ)) ∧
         rowGet r "partition_month" = some (Cell.num (dt.month : ℚ))) ∧
    process_bronze_to_silver c7Bronze = Except.ok (c7Silver, 0) ∧
    rowGet (c7Silver.rows.headD []) "timestamp_local" =
      some (Cell.time (DT.mk 2025 3 1 1 0).toLocal) ∧
    (DT.mk 2025 3 1 1 0).toLocal = DT.mk 2025 2 28 22 0 ∧
    rowGet (c7Silver.rows.headD []) "partition_month" = some (Cell.num 3) ∧
    (DT.mk 2025 3 1 1 0).toLocal.month = 2 := by
  refine ⟨?_, by decide, by decide, by decide, by decide, by decide⟩
  intro t s n h
  obtain ⟨t2, t4, hts, hdd, hs⟩ := process_ok t s n h
  obtain ⟨_, _, _, hts_rows, _⟩ := timestampStep_ok _ _ _ hts
  have h2 : ∀ r2 ∈ t2.rows, ∃ dt : DT,
      rowGet r2 "timestamp_utc" = some (Cell.time dt) ∧
      rowGet r2 "timestamp_local" = some (Cell.time dt.toLocal) := by
    intro r2 hr2
    rw [hts_rows] at hr2
    obtain ⟨r0, hr0, rfl⟩ := List.mem_map.mp hr2
    rw [List.mem_filter] at hr0
    obtain ⟨dt, hdt⟩ := Option.isSome_iff_exists.mp hr0.2
    refine ⟨dt, ?_, ?_⟩
    · rw [tsTransformRow_utc, hdt]
      rfl
    · rw [tsTransformRow_local, hdt]
      rfl
  have h3 := silver_rows_timestamps t2 h2
  obtain ⟨_, _, _, hrows4⟩ := dedupStep_ok _ _ hdd
  intro r hr
  subst hs
  obtain ⟨rp, hrp, rfl⟩ := dropColsStep_rows _ r hr
  obtain ⟨r4, hr4, hother, hpy, hpm⟩ := partitionStep_rows _ rp hrp
  have hr4' : r4 ∈ (qualityStep (coerceStep t2)).rows := by
    rw [hrows4] at hr4
    exact (keepFirstBy_sublist _ []).subset hr4
  obtain ⟨dt, hu, hl⟩ := h3 r4 hr4'
  refine ⟨dt, ?_, ?_, ?_⟩
  · rw [rowGet_drop_notMem _ _ _ (by decide), hother _ (by decide) (by decide), hl]
  · rw [rowGet_drop_notMem _ _ _ (by decide), hpy]
    unfold rowGetD
    rw [hu]
    rfl
  · rw [rowGet_drop_notMem _ _ _ (by decide), hpm]
    unfold rowGetD
    rw [hu]
    rfl

set_option maxRecDepth 400000 in
unseal Rat.mul Rat.inv Rat.add Rat.sub in
/-- C7, witness: the general statement applied to the concrete split-month
table. -/
theorem c7_partition_from_utc_witness :
    ∃ dt : DT,
      rowGet (c7Silver.rows.headD []) "timestamp_local" = some (Cell.time dt.toLocal) ∧
      rowGet (c7Silver.rows.headD []) "partition_year" = some (Cell.num (dt.year : ℚ)) ∧
      rowGet (c7Silver.rows.headD []) "partition_month" = some (Cell.num (dt.month : ℚ)) := by
  exact c7_partition_from_utc.1 c7Bronze c7Silver 0 (by decide)
    (c7Silver.rows.headD []) (by decide)

set_option maxRecDepth 400000 in
unseal Rat.mul Rat.inv Rat.add Rat.sub in
/-- C1, counterexample: the claim says every relative-humidity variant is
range-checked to `[0, 100]`, but the Silver output keeps the value 150 in
`umidade_rel_max_hora_ant_percent` — only the hourly relative-humidity
column is checked. -/
theorem c1_humidity_variant_unchecked :
    ((process_bronze_to_silver c1Bronze).map
      (fun p => (decide ("umidade_rel_max_hora_ant_percent" ∈ p.1.cols),
                 p.1.rows.map (fun r => rowGet r "umidade_rel_max_hora_ant_percent")))) =
      Except.ok (true, [some (Cell.num 150)]) ∧
    ¬((150 : ℚ) ≤ 100) := by
  exact ⟨by decide, by decide⟩

/-- C1 (amended): in every successfully processed Silver table, all present
values of the hourly relative-humidity column lie in `[0, 100]`, all present
precipitation values are nonnegative, and all present values of any column
whose name contains `temperatura` lie in `[-20, 50]`; the max/min humidity
variant columns are not range-checked. -/
theorem c1_quality_ranges :
    ∀ (t s : Table) (n : Nat), process_bronze_to_silver t = Except.ok (s, n) →
      ∀ r ∈ s.rows,
        ("umidade_relativa_ar_horaria_percent" ∈ s.cols →
           ∀ q : ℚ, rowGet r "umidade_relativa_ar_horaria_percent" = some (Cell.num q) →
             0 ≤ q ∧ q ≤ 100) ∧
        ("precipitacao_total_horario_mm" ∈ s.cols →
           ∀ q : ℚ, rowGet r "precipitacao_total_horario_mm" = some (Cell.num q) → 0 ≤ q) ∧
        (∀ c ∈ s.cols, strContains c "temperatura" = true →
           ∀ q : ℚ, rowGet r c = some (Cell.num q) → -20 ≤ q ∧ q ≤ 50) := by
  intro t s n h r hr
  obtain ⟨t2, t4, hts, hdd, hs⟩ := process_ok t s n h
  obtain ⟨_, _, ht2cols, _, _⟩ := timestampStep_ok _ _ _ hts
  obtain ⟨_, _, ht4cols, hrows4⟩ := dedupStep_ok _ _ hdd
  have ht3cols : (qualityStep (coerceStep t2)).cols = t2.cols := by
    rw [qualityStep_cols, coerceStep_cols]
  have hscols : ∀ c, c ∈ s.cols →
      c ∉ silverDroppedCols ∧
      (c ∈ (coerceStep t2).cols ∨ c = "partition_year" ∨ c = "partition_month") := by
    intro c hc
    rw [hs] at hc
    have hc' := hc
    unfold dropColsStep at hc'
    simp only [Table.cols] at hc'
    rw [List.mem_filter] at hc'
    obtain ⟨hcp, hnd⟩ := hc'
    refine ⟨by simpa using hnd, ?_⟩
    rw [partitionStep_cols] at hcp
    rcases (mem_addCol _ _ _).mp hcp with hcp | rfl
    · rcases (mem_addCol _ _ _).mp hcp with hcp | rfl
      · rw [ht4cols, ht3cols] at hcp
        rw [coerceStep_cols]
        exact Or.inl hcp
      · exact Or.inr (Or.inl rfl)
    · exact Or.inr (Or.inr rfl)
  have hrback : ∀ c, c ∉ silverDroppedCols → c ≠ "partition_year" → c ≠ "partition_month" →
      ∀ v, rowGet r c = some v →
      ∃ r4 ∈ (qualityStep (coerceStep t2)).rows, rowGet r4 c = some v := by
    intro c hnd hpy hpm v hv
    rw [hs] at hr
    obtain ⟨rp, hrp, rfl⟩ := dropColsStep_rows _ r hr
    obtain ⟨r4, hr4, hother, _, _⟩ := partitionStep_rows _ rp hrp
    rw [rowGet_drop_notMem _ _ _ hnd, hother c hpy hpm] at hv
    refine ⟨r4, ?_, hv⟩
    rw [hrows4] at hr4
    exact (keepFirstBy_sublist _ []).subset hr4
  refine ⟨?_, ?_, ?_⟩
  · intro hmem q hq
    obtain ⟨hnd, hmem'⟩ := hscols _ hmem
    rcases hmem' with hmem' | hmem' | hmem'
    · obtain ⟨r4, hr4, hv4⟩ := hrback _ hnd (by decide) (by decide) _ hq
      exact qualityStep_hum (coerceStep t2) hmem' r4 hr4 q hv4
    · exact absurd hmem' (by decide)
    · exact absurd hmem' (by decide)
  · intro hmem q hq
    obtain ⟨hnd, hmem'⟩ := hscols _ hmem
    rcases hmem' with hmem' | hmem' | hmem'
    · obtain ⟨r4, hr4, hv4⟩ := hrback _ hnd (by decide) (by decide) _ hq
      exact qualityStep_precip (coerceStep t2) hmem' r4 hr4 q hv4
    · exact absurd hmem' (by decide)
    · exact absurd hmem' (by decide)
  · intro c hmem hsub q hq
    obtain ⟨hnd, hmem'⟩ := hscols _ hmem
    have hpy : c ≠ "partition_year" := by
      intro hh
      rw [hh] at hsub
      exact absurd hsub (by decide)
    have hpm : c ≠ "partition_month" := by
      intro hh
      rw [hh] at hsub
      exact absurd hsub (by decide)
    rcases hmem' with hmem' | hmem' | hmem'
    · obtain ⟨r4, hr4, hv4⟩ := hrback _ hnd hpy hpm _ hq
      have hndcols : (coerceStep t2).cols.Nodup := by
        rw [coerceStep_cols, ht2cols]
        refine addCol_nodup _ _ (addCol_nodup _ _ ?_)
        unfold selectStep
        simp only [Table.cols]
        exact (by decide : canonicalCols.Nodup).filter _
      exact qualityStep_temp (coerceStep t2) hndcols c hmem' hsub r4 hr4 q hv4
    · exact absurd hmem' hpy
    · exact absurd hmem' hpm

set_option maxRecDepth 400000 in
unseal Rat.mul Rat.inv Rat.add Rat.sub in
/-- C1, witness: the amended claim applied to the concrete Silver output of
`c1BronzeOk`, yielding the range bounds for its retained humidity value 80. -/
theorem c1_quality_ranges_witness : (0 : ℚ) ≤ 80 ∧ (80 : ℚ) ≤ 100 := by
  exact (c1_quality_ranges c1BronzeOk c1SilverOk 0 (by decide)
    (c1SilverOk.rows.headD []) (by decide)).1 (by decide) 80 (by decide)

set_option maxRecDepth 400000 in
/-- C9, counterexample: the claim says a missing raw counterpart of any
canonical field, including the hour-of-day field, never causes the stage to
fail; but on a table without `Hora UTC` the stage raises (the `KeyError` is
re-raised by the timestamp block's handler). -/
theorem c9_missing_hour_fatal :
    "Hora UTC" ∉ c9Bronze.cols ∧
    process_bronze_to_silver c9Bronze = Except.error "KeyError: hora_utc/data" := by
  exact ⟨by decide, by decide⟩

/-- C9 (amended): a missing raw *measurement* column never causes the Silver
stage to fail — when the date, hour-of-day and source-file columns are
present the stage always succeeds, and any absent measurement column is
simply missing from the output; but a missing `Data`, `Hora UTC` or
`source_file` column makes the stage fail. -/
theorem c9_missing_measurements_tolerated :
    (∀ t : Table, "Data" ∈ t.cols → "Hora UTC" ∈ t.cols → "source_file" ∈ t.cols →
       ∃ (s : Table) (n : Nat), process_bronze_to_silver t = Except.ok (s, n)) ∧
    (∀ (t s : Table) (n : Nat), process_bronze_to_silver t = Except.ok (s, n) →
       ∀ c ∈ numericCols, c ∉ (renameStep t).cols → c ∉ s.cols) := by
  constructor
  · intro t hD hH hS
    have hdata : "data" ∈ (selectStep (renameStep t)).cols := by
      unfold selectStep
      simp only [Table.cols]
      rw [List.mem_filter]
      refine ⟨by decide, decide_eq_true ?_⟩
      unfold renameStep
      simp only [Table.cols]
      exact List.mem_map.mpr ⟨"Data", hD, by decide⟩
    have hhora : "hora_utc" ∈ (selectStep (renameStep t)).cols := by
      unfold selectStep
      simp only [Table.cols]
      rw [List.mem_filter]
      refine ⟨by decide, decide_eq_true ?_⟩
      unfold renameStep
      simp only [Table.cols]
      exact List.mem_map.mpr ⟨"Hora UTC", hH, by decide⟩
    have hsf : "source_file" ∈ (selectStep (renameStep t)).cols := by
      unfold selectStep
      simp only [Table.cols]
      rw [List.mem_filter]
      refine ⟨by decide, decide_eq_true ?_⟩
      unfold renameStep
      simp only [Table.cols]
      exact List.mem_map.mpr ⟨"source_file", hS, by decide⟩
    have hts : timestampStep (selectStep (renameStep t)) =
        Except.ok
          (⟨addCol (addCol (selectStep (renameStep t)).cols "timestamp_utc") "timestamp_local",
            ((selectStep (renameStep t)).rows.filter
              (fun r => (silverRowTs r).isSome)).map tsTransformRow⟩,
           (selectStep (renameStep t)).rows.length -
             (((selectStep (renameStep t)).rows.filter
               (fun r => (silverRowTs r).isSome)).map tsTransformRow).length) := by
      unfold timestampStep
      rw [if_pos ⟨hhora, hdata⟩]
    have hlocal : "timestamp_local" ∈
        (qualityStep (coerceStep
          (⟨addCol (addCol (selectStep (renameStep t)).cols "timestamp_utc") "timestamp_local",
            ((selectStep (renameStep t)).rows.filter
              (fun r => (silverRowTs r).isSome)).map tsTransformRow⟩ : Table))).cols := by
      rw [qualityStep_cols, coerceStep_cols]
      exact (mem_addCol _ _ _).mpr (Or.inr rfl)
    have hsf2 : "source_file" ∈
        (qualityStep (coerceStep
          (⟨addCol (addCol (selectStep (renameStep t)).cols "timestamp_utc") "timestamp_local",
            ((selectStep (renameStep t)).rows.filter
              (fun r => (silverRowTs r).isSome)).map tsTransformRow⟩ : Table))).cols := by
      rw [qualityStep_cols, coerceStep_cols]
      exact (mem_addCol _ _ _).mpr
        (Or.inl ((mem_addCol _ _ _).mpr (Or.inl hsf)))
    have hdd : dedupStep (qualityStep (coerceStep
        (⟨addCol (addCol (selectStep (renameStep t)).cols "timestamp_utc") "timestamp_local",
          ((selectStep (renameStep t)).rows.filter
            (fun r => (silverRowTs r).isSome)).map tsTransformRow⟩ : Table))) =
        Except.ok ⟨(qualityStep (coerceStep
          (⟨addCol (addCol (selectStep (renameStep t)).cols "timestamp_utc") "timestamp_local",
            ((selectStep (renameStep t)).rows.filter
              (fun r => (silverRowTs r).isSome)).map tsTransformRow⟩ : Table))).cols,
          keepFirstBy (qualityStep (coerceStep
            (⟨addCol (addCol (selectStep (renameStep t)).cols "timestamp_utc") "timestamp_local",
              ((selectStep (renameStep t)).rows.filter
                (fun r => (silverRowTs r).isSome)).map tsTransformRow⟩ : Table))).rows []⟩ := by
      unfold dedupStep
      rw [if_pos ⟨hlocal, hsf2⟩]
    exact ⟨_, _, process_eq_of_steps t _ _ _ hts hdd⟩
  · intro t s n h c hcnum hcren
    obtain ⟨t2, t4, hts, hdd, hs⟩ := process_ok t s n h
    obtain ⟨_, _, ht2cols, _, _⟩ := timestampStep_ok _ _ _ hts
    obtain ⟨_, _, ht4cols, _⟩ := dedupStep_ok _ _ hdd
    intro hc
    rw [hs] at hc
    unfold dropColsStep at hc
    simp only [Table.cols] at hc
    rw [List.mem_filter] at hc
    obtain ⟨hcp, _⟩ := hc
    rw [partitionStep_cols] at hcp
    rcases (mem_addCol _ _ _).mp hcp with hcp | rfl
    · rcases (mem_addCol _ _ _).mp hcp with hcp | rfl
      · rw [ht4cols, qualityStep_cols, coerceStep_cols, ht2cols] at hcp
        rcases (mem_addCol _ _ _).mp hcp with hcp | rfl
        · rcases (mem_addCol _ _ _).mp hcp with hcp | rfl
          · unfold selectStep at hcp
            simp only [Table.cols] at hcp
            rw [List.mem_filter] at hcp
            exact hcren (of_decide_eq_true hcp.2)
          · exact absurd hcnum (by decide)
        · exact absurd hcnum (by decide)
      · exact absurd hcnum (by decide)
    · exact absurd hcnum (by decide)

set_option maxRecDepth 400000 in
unseal Rat.mul Rat.inv Rat.add Rat.sub in
/-- C9, witness: the amended claim applied to a concrete table without any
measurement column (the stage succeeds and the precipitation column is
absent from the output). -/
theorem c9_missing_measurements_tolerated_witness :
    (process_bronze_to_silver c9okBronze).isOk = true ∧
    "precipitacao_total_horario_mm" ∉ c9okSilver.cols := by
  constructor
  · obtain ⟨s, n, hsn⟩ := c9_missing_measurements_tolerated.1 c9okBronze
      (by decide) (by decide) (by decide)
    rw [hsn]
    rfl
  · exact c9_missing_measurements_tolerated.2 c9okBronze c9okSilver 0 (by decide)
      "precipitacao_total_horario_mm" (by decide) (by decide)

/- ### C3: hour cleaning and timestamp construction -/

theorem stripUTC_digits (l : List Char) (h : ∀ ch ∈ l, ch.isDigit = true) :
    stripUTC l = l := by
  induction l with
  | nil => rfl
  | cons c rest ih =>
    have hc : c.isDigit = true := h c (List.mem_cons_self c rest)
    have hcs : c ≠ ' ' := by
      intro hh
      rw [hh] at hc
      exact absurd hc (by decide)
    conv_lhs => rw [stripUTC.eq_def]
    split
    · rename_i heq
      injection heq with heq1 _
      exact absurd heq1 hcs
    · rename_i heq
      injection heq with heq1 heq2
      subst heq1
      subst heq2
      rw [ih (fun ch hch => h ch (List.mem_cons_of_mem c hch))]
    · rename_i heq
      exact absurd heq (by simp)

theorem stripUTC_append_utc (l : List Char) (h : ∀ ch ∈ l, ch.isDigit = true) :
    stripUTC (l ++ [' ', 'U', 'T', 'C']) = l := by
  induction l with
  | nil => rfl
  | cons c rest ih =>
    have hc : c.isDigit = true := h c (List.mem_cons_self c rest)
    have hcs : c ≠ ' ' := by
      intro hh
      rw [hh] at hc
      exact absurd hc (by decide)
    rw [List.cons_append]
    conv_lhs => rw [stripUTC.eq_def]
    split
    · rename_i heq
      injection heq with heq1 _
      exact absurd heq1 hcs
    · rename_i heq
      injection heq with heq1 heq2
      subst heq1
      rw [← heq2, ih (fun ch hch => h ch (List.mem_cons_of_mem c hch))]
    · rename_i heq
      exact absurd heq (by simp)

theorem filterSome_countP_none (l : List Row) :
    (l.filter (fun r => (silverRowTs r).isSome)).length +
      l.countP (fun r => (silverRowTs r).isNone) = l.length := by
  induction l with
  | nil => rfl
  | cons r rest ih =>
    rw [List.filter_cons, List.countP_cons]
    cases hsr : silverRowTs r with
    | none =>
      simp only [hsr, Option.isSome_none, Option.isNone_none, Bool.false_eq_true, if_false,
        if_true, List.length_cons]
      omega
    | some dt =>
      simp only [hsr, Option.isSome_some, Option.isNone_some, Bool.false_eq_true, if_true,
        if_false, List.length_cons]
      omega

/-- C3: the Normalizer's hour cleaning removes the `" UTC"` marker and
left-zero-pads to four digits, maps the end-of-day sentinel `"2400"` to
`"0000"` without advancing the calendar date, parses the concatenated
date-and-hour string with the fixed `%Y/%m/%d %H%M` format, attaches the
fixed target-timezone conversion, drops exactly the rows whose parse fails,
and reports the number of dropped rows. -/
theorem c3_timestamp_normalization :
    (∀ s : String, (∀ ch ∈ s.data, ch.isDigit = true) →
       cleanHora (s ++ " UTC") = cleanHora s ∧
       cleanHora s = (if zfillL 4 s.data = ['2', '4', '0', '0'] then String.mk ['0', '0', '0', '0']
                      else String.mk (zfillL 4 s.data))) ∧
    cleanHora "0 UTC" = "0000" ∧ cleanHora "100 UTC" = "0100" ∧
    cleanHora "2400 UTC" = "0000" ∧
    silverRowTs [("data", Cell.str "2025/01/31"), ("hora_utc", Cell.str "2400 UTC")] =
      some ⟨2025, 1, 31, 0, 0⟩ ∧
    (∀ (t t' : Table) (n : Nat), timestampStep t = Except.ok (t', n) →
       n = t.rows.countP (fun r => (silverRowTs r).isNone) ∧
       t'.rows.length + n = t.rows.length ∧
       ∀ r' ∈ t'.rows, ∃ r ∈ t.rows, ∃ dt : DT,
         parseTs (pyStr (rowGetD r "data") ++ " " ++ cleanHora (pyStr (rowGetD r "hora_utc"))) =
           some dt ∧
         rowGet r' "timestamp_utc" = some (Cell.time dt) ∧
         rowGet r' "timestamp_local" = some (Cell.time dt.toLocal)) := by
  refine ⟨?_, by decide, by decide, by decide, by decide, ?_⟩
  · intro s hdig
    have hstrip : stripUTC s.data = s.data := stripUTC_digits s.data hdig
    have happ : stripUTC (s ++ " UTC").data = s.data := by
      rw [String.data_append]
      exact stripUTC_append_utc s.data hdig
    constructor
    · unfold cleanHora
      rw [happ, hstrip]
    · unfold cleanHora
      rw [hstrip]
  · intro t t' n h
    obtain ⟨_, _, _, hrows, hn⟩ := timestampStep_ok _ _ _ h
    have hcount := filterSome_countP_none t.rows
    have hlen : t'.rows.length = (t.rows.filter (fun r => (silverRowTs r).isSome)).length := by
      rw [hrows, List.length_map]
    refine ⟨by omega, by omega, ?_⟩
    intro r' hr'
    rw [hrows] at hr'
    obtain ⟨r, hrm, rfl⟩ := List.mem_map.mp hr'
    rw [List.mem_filter] at hrm
    obtain ⟨hrt, hsome⟩ := hrm
    obtain ⟨dt, hdt⟩ := Option.isSome_iff_exists.mp hsome
    refine ⟨r, hrt, dt, hdt, ?_, ?_⟩
    · rw [tsTransformRow_utc, hdt]
      rfl
    · rw [tsTransformRow_local, hdt]
      rfl

set_option maxRecDepth 400000 in
/-- C3, witness: the hour-cleaning and drop-count properties applied to the
concrete strings `"100"` and table `c3T` (one of whose two rows fails to
parse). -/
theorem c3_timestamp_normalization_witness :
    cleanHora ("100" ++ " UTC") = cleanHora "100" ∧
    (1 : Nat) = c3T.rows.countP (fun r => (silverRowTs r).isNone) ∧
    c3TOut.rows.length + 1 = c3T.rows.length := by
  obtain ⟨hn, hlen, _⟩ :=
    c3_timestamp_normalization.2.2.2.2.2 c3T c3TOut 1 (by decide)
  exact ⟨(c3_timestamp_normalization.1 "100" (by decide)).1, hn, hlen⟩

/- ### Aggregation row characterization (Gold) -/

theorem assocMapGet (rules : List (String × String × AggOp))
    (f : (String × String × AggOp) → Cell) (nm src : String) (op : AggOp)
    (hnd : (rules.map (fun rl => rl.1)).Nodup) (hmem : (nm, src, op) ∈ rules) :
    rowGet (rules.map (fun rl => (rl.1, f rl))) nm = some (f (nm, src, op)) := by
  induction rules with
  | nil => simp at hmem
  | cons rl rest ih =>
    rw [List.map_cons, List.nodup_cons] at hnd
    rw [List.map_cons]
    by_cases hk : rl.1 = nm
    · rcases List.mem_cons.mp hmem with heq | hmem'
      · rw [← heq]
        simp [rowGet, hk]
      · exact absurd (hk ▸ List.mem_map_of_mem (fun rl => rl.1) hmem') hnd.1
    · rcases List.mem_cons.mp hmem with heq | hmem'
      · rw [← heq] at hk
        exact absurd rfl hk
      · simp only [rowGet, hk, if_false]
        exact ih hnd.2 hmem'

theorem availableRules_names_nodup (cols : List String) :
    ((availableRules cols).map (fun rl => rl.1)).Nodup := by
  have hsub : ((availableRules cols).map (fun rl => rl.1)).Sublist
      (allAggRules.map (fun rl => rl.1)) :=
    (List.filter_sublist allAggRules).map _
  exact (by decide : (allAggRules.map (fun rl => rl.1)).Nodup).sublist hsub

theorem buildRow_get (k : Cell × Cell) (grp : List Row) (cols : List String)
    (nm src : String) (op : AggOp) (hmem : (nm, src, op) ∈ availableRules cols) :
    rowGet (buildRow k grp (availableRules cols)) nm =
      some (aggCell op (grp.map (fun x => rowGetD x src))) := by
  have hall : (nm, src, op) ∈ allAggRules := (List.mem_filter.mp hmem).1
  have hdl : nm ≠ "data_local" := by
    have : ∀ rl ∈ allAggRules, rl.1 ≠ "data_local" := by decide
    exact this _ hall
  have hmun : nm ≠ "municipio" := by
    have : ∀ rl ∈ allAggRules, rl.1 ≠ "municipio" := by decide
    exact this _ hall
  unfold buildRow
  rw [show rowGet (("data_local", k.1) :: ("municipio", k.2) ::
      (availableRules cols).map (fun rl =>
        (rl.1, aggCell rl.2.2 (grp.map (fun x => rowGetD x rl.2.1))))) nm =
      rowGet ((availableRules cols).map (fun rl =>
        (rl.1, aggCell rl.2.2 (grp.map (fun x => rowGetD x rl.2.1))))) nm from by
    simp only [rowGet]
    rw [if_neg (fun h : "data_local" = nm => hdl h.symm),
        if_neg (fun h : "municipio" = nm => hmun h.symm)]]
  exact assocMapGet (availableRules cols)
    (fun rl => aggCell rl.2.2 (grp.map (fun x => rowGetD x rl.2.1))) nm src op
    (availableRules_names_nodup cols) hmem

theorem aggCore_rows (t : Table) :
    ∀ r0 ∈ (aggCore t).rows, ∃ (k : Cell × Cell) (grp : List Row),
      grp ≠ [] ∧ (∀ x ∈ grp, x ∈ t.rows) ∧
      r0 = buildRow k grp (availableRules t.cols) := by
  intro r0 hr0
  unfold aggCore at hr0
  simp only [Table.rows] at hr0
  obtain ⟨k, hk, rfl⟩ := List.mem_map.mp hr0
  have hkmem := firstKeys_mem _ _ _ hk
  obtain ⟨x, hx, hgk⟩ := List.mem_map.mp hkmem
  refine ⟨k, _, ?_, ?_, rfl⟩
  · intro hnil
    have hxin : x ∈ (t.rows.filter (fun r =>
        decide (rowGetD r "data_local" ≠ Cell.na ∧ rowGetD r "municipio" ≠ Cell.na))).filter
          (fun x => decide (groupKey x = k)) := by
      rw [List.mem_filter]
      exact ⟨hx, decide_eq_true hgk⟩
    rw [hnil] at hxin
    exact absurd hxin (List.not_mem_nil x)
  · intro y hy
    rw [List.mem_filter] at hy
    exact List.mem_of_mem_filter hy.1

theorem aggTempRule_max :
    ("temp_maxima_diaria_c", "temperatura_max_hora_ant_c", AggOp.amax) ∈ allAggRules := by
  decide

theorem aggTempRule_min :
    ("temp_minima_diaria_c", "temperatura_min_hora_ant_c", AggOp.amin) ∈ allAggRules := by
  decide

theorem availableRules_mem (cols : List String) (nm src : String) (op : AggOp) :
    (nm, src, op) ∈ availableRules cols ↔ (nm, src, op) ∈ allAggRules ∧ src ∈ cols := by
  unfold availableRules
  rw [List.mem_filter]
  constructor
  · rintro ⟨h1, h2⟩
    exact ⟨h1, of_decide_eq_true h2⟩
  · rintro ⟨h1, h2⟩
    exact ⟨h1, decide_eq_true h2⟩

theorem aggCore_cols (t : Table) :
    (aggCore t).cols = "data_local" :: "municipio" ::
      (availableRules t.cols).map (fun rl => rl.1) := rfl

theorem amplitudeStep_cols_mono (t : Table) (c : String) (h : c ∈ t.cols) :
    c ∈ (amplitudeStep t).cols := by
  unfold amplitudeStep
  split
  · exact (mem_addCol _ _ _).mpr (Or.inl h)
  · exact h

theorem aggregate_row_metrics (t0 g : Table) (h : aggregate_to_gold t0 = Except.ok g) :
    ∀ r ∈ g.rows, ∃ grp : List Row, grp ≠ [] ∧
      (∀ x ∈ grp, x ∈ (municipioStep t0).rows) ∧
      (∀ (nm src : String) (op : AggOp) (d : Nat),
         (nm, src, op) ∈ availableRules t0.cols → (nm, d) ∈ roundingMap →
         rowGet r nm = some (roundCell d (aggCell op (grp.map (fun x => rowGetD x src))))) ∧
      ("temperatura_max_hora_ant_c" ∈ t0.cols → "temperatura_min_hora_ant_c" ∈ t0.cols →
         rowGet r "amplitude_termica_diaria_c" = some (roundCell 2 (cellSub
           (aggCell AggOp.amax (grp.map (fun x => rowGetD x "temperatura_max_hora_ant_c")))
           (aggCell AggOp.amin (grp.map (fun x => rowGetD x "temperatura_min_hora_ant_c")))))) := by
  intro r hr
  unfold aggregate_to_gold at h
  split at h
  case isFalse => exact absurd h (by simp)
  case isTrue hmun =>
  split at h
  · injection h with h
    subst h
    exact absurd hr (List.not_mem_nil r)
  case isFalse havail =>
  split at h
  case isFalse => exact absurd h (by simp)
  case isTrue hdl =>
  injection h with h
  subst h
  unfold roundingStep at hr
  obtain ⟨r1, hr1, hg1, hg2, _⟩ :=
    foldMapColIf_rows (fun cd : String × Nat => cd.1) (fun cd : String × Nat => roundCell cd.2)
      roundingMap (amplitudeStep (aggCore (municipioStep t0))) (by decide) r hr
  have hnamp : ∀ rl ∈ allAggRules, rl.1 ≠ "amplitude_termica_diaria_c" := by decide
  unfold amplitudeStep at hr1
  split at hr1
  case isTrue hboth =>
    unfold mapColNew at hr1
    simp only [Table.rows] at hr1
    obtain ⟨r0, hr0, rfl⟩ := List.mem_map.mp hr1
    obtain ⟨k, grp, hne, hsub, rfl⟩ := aggCore_rows _ r0 hr0
    refine ⟨grp, hne, hsub, ?_, ?_⟩
    · intro nm src op d hrule hrd
      have hrule' : (nm, src, op) ∈ availableRules (municipioStep t0).cols := by
        rw [municipioStep_cols]
        exact hrule
      have hnmcols : nm ∈ (amplitudeStep (aggCore (municipioStep t0))).cols := by
        refine amplitudeStep_cols_mono _ _ ?_
        rw [aggCore_cols]
        exact List.mem_cons_of_mem _ (List.mem_cons_of_mem _
          (List.mem_map_of_mem (fun rl => rl.1) hrule'))
      have hval := hg2 (nm, d) hrd hnmcols
      rw [hval]
      have hnma : nm ≠ "amplitude_termica_diaria_c" :=
        hnamp _ (List.mem_filter.mp hrule').1
      have : rowGetD (rowSet (buildRow k grp (availableRules (municipioStep t0).cols))
          "amplitude_termica_diaria_c"
          (cellSub (rowGetD (buildRow k grp (availableRules (municipioStep t0).cols))
              "temp_maxima_diaria_c")
            (rowGetD (buildRow k grp (availableRules (municipioStep t0).cols))
              "temp_minima_diaria_c"))) nm =
          aggCell op (grp.map (fun x => rowGetD x src)) := by
        unfold rowGetD
        rw [rowGet_set_ne _ _ _ _ hnma, buildRow_get _ _ _ nm src op hrule']
        rfl
      rw [this]
    · intro htmax htmin
      have hmaxrule : ("temp_maxima_diaria_c", "temperatura_max_hora_ant_c", AggOp.amax) ∈
          availableRules (municipioStep t0).cols := by
        rw [availableRules_mem, municipioStep_cols]
        exact ⟨aggTempRule_max, htmax⟩
      have hminrule : ("temp_minima_diaria_c", "temperatura_min_hora_ant_c", AggOp.amin) ∈
          availableRules (municipioStep t0).cols := by
        rw [availableRules_mem, municipioStep_cols]
        exact ⟨aggTempRule_min, htmin⟩
      have hampcols : "amplitude_termica_diaria_c" ∈
          (amplitudeStep (aggCore (municipioStep t0))).cols := by
        unfold amplitudeStep
        rw [if_pos hboth]
        exact (mem_addCol _ _ _).mpr (Or.inr rfl)
      have hval := hg2 ("amplitude_termica_diaria_c", 2) (by decide) hampcols
      rw [hval]
      have : rowGetD (rowSet (buildRow k grp (availableRules (municipioStep t0).cols))
          "amplitude_termica_diaria_c"
          (cellSub (rowGetD (buildRow k grp (availableRules (municipioStep t0).cols))
              "temp_maxima_diaria_c")
            (rowGetD (buildRow k grp (availableRules (municipioStep t0).cols))
              "temp_minima_diaria_c"))) "amplitude_termica_diaria_c" =
          cellSub
            (aggCell AggOp.amax (grp.map (fun x => rowGetD x "temperatura_max_hora_ant_c")))
            (aggCell AggOp.amin (grp.map (fun x => rowGetD x "temperatura_min_hora_ant_c"))) := by
        unfold rowGetD
        rw [rowGet_set_self]
        simp only [Option.getD_some]
        rw [show (rowGet (buildRow k grp (availableRules (municipioStep t0).cols))
            "temp_maxima_diaria_c").getD Cell.na =
            aggCell AggOp.amax (grp.map (fun x => rowGetD x "temperatura_max_hora_ant_c")) from by
          rw [buildRow_get _ _ _ _ _ _ hmaxrule]
          rfl]
        rw [show (rowGet (buildRow k grp (availableRules (municipioStep t0).cols))
            "temp_minima_diaria_c").getD Cell.na =
            aggCell AggOp.amin (grp.map (fun x => rowGetD x "temperatura_min_hora_ant_c")) from by
          rw [buildRow_get _ _ _ _ _ _ hminrule]
          rfl]
        rfl
      rw [this]
  case isFalse hnboth =>
    obtain ⟨k, grp, hne, hsub, rfl⟩ := aggCore_rows _ r1 hr1
    refine ⟨grp, hne, hsub, ?_, ?_⟩
    · intro nm src op d hrule hrd
      have hrule' : (nm, src, op) ∈ availableRules (municipioStep t0).cols := by
        rw [municipioStep_cols]
        exact hrule
      have hnmcols : nm ∈ (amplitudeStep (aggCore (municipioStep t0))).cols := by
        refine amplitudeStep_cols_mono _ _ ?_
        rw [aggCore_cols]
        exact List.mem_cons_of_mem _ (List.mem_cons_of_mem _
          (List.mem_map_of_mem (fun rl => rl.1) hrule'))
      have hval := hg2 (nm, d) hrd hnmcols
      rw [hval, show rowGetD (buildRow k grp (availableRules (municipioStep t0).cols)) nm =
          aggCell op (grp.map (fun x => rowGetD x src)) from by
        unfold rowGetD
        rw [buildRow_get _ _ _ nm src op hrule']
        rfl]
    · intro htmax htmin
      exfalso
      refine hnboth ⟨?_, ?_⟩
      · rw [aggCore_cols]
        have hmaxrule : ("temp_maxima_diaria_c", "temperatura_max_hora_ant_c", AggOp.amax) ∈
            availableRules (municipioStep t0).cols := by
          rw [availableRules_mem, municipioStep_cols]
          exact ⟨aggTempRule_max, htmax⟩
        exact List.mem_cons_of_mem _ (List.mem_cons_of_mem _
          (List.mem_map_of_mem (fun rl : String × String × AggOp => rl.1) hmaxrule))
      · rw [aggCore_cols]
        have hminrule : ("temp_minima_diaria_c", "temperatura_min_hora_ant_c", AggOp.amin) ∈
            availableRules (municipioStep t0).cols := by
          rw [availableRules_mem, municipioStep_cols]
          exact ⟨aggTempRule_min, htmin⟩
        exact List.mem_cons_of_mem _ (List.mem_cons_of_mem _
          (List.mem_map_of_mem (fun rl : String × String × AggOp => rl.1) hminrule))

theorem aggCell_all_absent (op : AggOp) (cells : List Cell)
    (h : ∀ c ∈ cells, isNumCell c = false) :
    aggCell op cells = (if op = AggOp.asum then Cell.num 0 else Cell.na) := by
  have hnil : cells.filterMap (fun c =>
      match c with
      | Cell.num q => some q
      | _ => none) = [] := by
    rw [List.filterMap_eq_nil_iff]
    intro c hc
    have := h c hc
    cases c with
    | num q => exact absurd this (by simp [isNumCell])
    | str s => rfl
    | time t => rfl
    | date d => rfl
    | na => rfl
  unfold aggCell
  rw [hnil]
  cases op <;> rfl

theorem roundTo_zero (d : Nat) : roundTo d 0 = 0 := by
  unfold roundTo roundHalfEven qfloor
  norm_num

/-- C10: in the Daily Aggregator, a group whose source values for a metric
are all absent yields exactly `0` for the sum-aggregated metrics and an
absent value for the mean/max/min-aggregated metrics. -/
theorem c10_sum_zero_on_all_absent :
    ∀ (t g : Table), aggregate_to_gold t = Except.ok g →
      ∀ r ∈ g.rows, ∃ grp : List Row, grp ≠ [] ∧
        (∀ x ∈ grp, x ∈ (municipioStep t).rows) ∧
        ∀ (nm src : String) (op : AggOp) (d : Nat),
          (nm, src, op) ∈ availableRules t.cols → (nm, d) ∈ roundingMap →
          (∀ x ∈ grp, isNumCell (rowGetD x src) = false) →
          rowGet r nm = some (if op = AggOp.asum then Cell.num 0 else Cell.na) := by
  intro t g h r hr
  obtain ⟨grp, hne, hsub, hmet, _⟩ := aggregate_row_metrics t g h r hr
  refine ⟨grp, hne, hsub, ?_⟩
  intro nm src op d hrule hrd habs
  rw [hmet nm src op d hrule hrd]
  have hcells : ∀ c ∈ grp.map (fun x => rowGetD x src), isNumCell c = false := by
    intro c hc
    obtain ⟨x, hx, rfl⟩ := List.mem_map.mp hc
    exact habs x hx
  rw [aggCell_all_absent op _ hcells]
  cases op with
  | asum =>
    simp only [if_true]
    rw [show roundCell d (Cell.num 0) = Cell.num (roundTo d 0) from rfl, roundTo_zero]
  | amean => rfl
  | amax => rfl
  | amin => rfl

set_option maxRecDepth 400000 in
unseal Rat.mul Rat.inv Rat.add Rat.sub in
/-- C10, witness: the all-absent group of `c10Silver` yields `0` for the
precipitation sum and an absent daily-mean temperature. -/
theorem c10_sum_zero_on_all_absent_witness :
    rowGet (c10Gold.rows.headD []) "precipitacao_total_diaria_mm" = some (Cell.num 0) ∧
    rowGet (c10Gold.rows.headD []) "temp_media_diaria_c" = some Cell.na := by
  obtain ⟨grp, hne, hsub, hval⟩ :=
    c10_sum_zero_on_all_absent c10Silver c10Gold (by decide)
      (c10Gold.rows.headD []) (by decide)
  have habsp : ∀ x ∈ grp, isNumCell (rowGetD x "precipitacao_total_horario_mm") = false :=
    fun x hx =>
      (by decide : ∀ x ∈ (municipioStep c10Silver).rows,
        isNumCell (rowGetD x "precipitacao_total_horario_mm") = false) x (hsub x hx)
  have habst : ∀ x ∈ grp, isNumCell (rowGetD x "temperatura_ar_bulbo_seco_horaria_c") = false :=
    fun x hx =>
      (by decide : ∀ x ∈ (municipioStep c10Silver).rows,
        isNumCell (rowGetD x "temperatura_ar_bulbo_seco_horaria_c") = false) x (hsub x hx)
  exact ⟨hval "precipitacao_total_diaria_mm" "precipitacao_total_horario_mm" AggOp.asum 1
      (by decide) (by decide) habsp,
    hval "temp_media_diaria_c" "temperatura_ar_bulbo_seco_horaria_c" AggOp.amean 2
      (by decide) (by decide) habst⟩

theorem aggCoreName_src (t0 : Table) (nm : String)
    (hnm : nm ∈ (aggCore (municipioStep t0)).cols)
    (hnd : nm ≠ "data_local") (hnm2 : nm ≠ "municipio") :
    ∃ src op, (nm, src, op) ∈ allAggRules ∧ src ∈ t0.cols := by
  rw [aggCore_cols] at hnm
  rcases List.mem_cons.mp hnm with heq | hnm
  · exact absurd heq hnd
  rcases List.mem_cons.mp hnm with heq | hnm
  · exact absurd heq hnm2
  obtain ⟨rl, hrl, hrlname⟩ := List.mem_map.mp hnm
  rw [availableRules_mem, municipioStep_cols] at hrl
  refine ⟨rl.2.1, rl.2.2, ?_, hrl.2⟩
  have : rl = (nm, rl.2.1, rl.2.2) := by
    rw [← hrlname]
  exact this ▸ hrl.1

/-- C8: amplitude is the difference of the unrounded daily maximum and
minimum, rounding is applied after all aggregation with the metric-specific
precision (2 decimals for temperature-family metrics including the
amplitude, 1 for precipitation, as recorded in `roundingMap`), and the
amplitude column exists exactly when both temperature source columns do. -/
theorem c8_amplitude_and_rounding :
    ∀ (t g : Table), aggregate_to_gold t = Except.ok g →
      (("temperatura_max_hora_ant_c" ∈ t.cols ∧ "temperatura_min_hora_ant_c" ∈ t.cols) →
         "amplitude_termica_diaria_c" ∈ g.cols) ∧
      (¬("temperatura_max_hora_ant_c" ∈ t.cols ∧ "temperatura_min_hora_ant_c" ∈ t.cols) →
         "amplitude_termica_diaria_c" ∉ g.cols) ∧
      ∀ r ∈ g.rows, ∃ grp : List Row, grp ≠ [] ∧
        (∀ x ∈ grp, x ∈ (municipioStep t).rows) ∧
        (∀ (nm src : String) (op : AggOp) (d : Nat),
           (nm, src, op) ∈ availableRules t.cols → (nm, d) ∈ roundingMap →
           rowGet r nm = some (roundCell d (aggCell op (grp.map (fun x => rowGetD x src))))) ∧
        (("temperatura_max_hora_ant_c" ∈ t.cols ∧ "temperatura_min_hora_ant_c" ∈ t.cols) →
           rowGet r "amplitude_termica_diaria_c" = some (roundCell 2 (cellSub
             (aggCell AggOp.amax (grp.map (fun x => rowGetD x "temperatura_max_hora_ant_c")))
             (aggCell AggOp.amin (grp.map (fun x => rowGetD x "temperatura_min_hora_ant_c")))))) := by
  intro t g h
  refine ⟨?_, ?_, ?_⟩
  · rintro ⟨htmax, htmin⟩
    have hmaxrule : ("temp_maxima_diaria_c", "temperatura_max_hora_ant_c", AggOp.amax) ∈
        availableRules (municipioStep t).cols := by
      rw [availableRules_mem, municipioStep_cols]
      exact ⟨aggTempRule_max, htmax⟩
    have hminrule : ("temp_minima_diaria_c", "temperatura_min_hora_ant_c", AggOp.amin) ∈
        availableRules (municipioStep t).cols := by
      rw [availableRules_mem, municipioStep_cols]
      exact ⟨aggTempRule_min, htmin⟩
    unfold aggregate_to_gold at h
    split at h
    case isFalse => exact absurd h (by simp)
    split at h
    · rename_i hav
      exact absurd (hav ▸ hmaxrule) (List.not_mem_nil _)
    split at h
    case isFalse => exact absurd h (by simp)
    injection h with h
    subst h
    rw [roundingStep_cols]
    unfold amplitudeStep
    rw [if_pos ?_]
    · exact (mem_addCol _ _ _).mpr (Or.inr rfl)
    · constructor
      · rw [aggCore_cols]
        exact List.mem_cons_of_mem _ (List.mem_cons_of_mem _
          (List.mem_map_of_mem (fun rl : String × String × AggOp => rl.1) hmaxrule))
      · rw [aggCore_cols]
        exact List.mem_cons_of_mem _ (List.mem_cons_of_mem _
          (List.mem_map_of_mem (fun rl : String × String × AggOp => rl.1) hminrule))
  · intro hnboth hamp
    unfold aggregate_to_gold at h
    split at h
    case isFalse => exact absurd h (by simp)
    split at h
    · injection h with h
      subst h
      exact absurd hamp (List.not_mem_nil _)
    split at h
    case isFalse => exact absurd h (by simp)
    injection h with h
    subst h
    rw [roundingStep_cols] at hamp
    revert hamp
    unfold amplitudeStep
    split
    · rename_i hboth
      intro _
      refine hnboth ⟨?_, ?_⟩
      · obtain ⟨src, op, hmem, hsrc⟩ :=
          aggCoreName_src t "temp_maxima_diaria_c" hboth.1 (by decide) (by decide)
        have hpin : ∀ rl ∈ allAggRules, rl.1 = "temp_maxima_diaria_c" →
            rl.2.1 = "temperatura_max_hora_ant_c" := by decide
        have := hpin _ hmem rfl
        simp only at this
        rw [← this]
        exact hsrc
      · obtain ⟨src, op, hmem, hsrc⟩ :=
          aggCoreName_src t "temp_minima_diaria_c" hboth.2 (by decide) (by decide)
        have hpin : ∀ rl ∈ allAggRules, rl.1 = "temp_minima_diaria_c" →
            rl.2.1 = "temperatura_min_hora_ant_c" := by decide
        have := hpin _ hmem rfl
        simp only at this
        rw [← this]
        exact hsrc
    · intro hamp
      obtain ⟨src, op, hmem, _⟩ := aggCoreName_src t _ hamp (by decide) (by decide)
      have : ∀ rl ∈ allAggRules, rl.1 ≠ "amplitude_termica_diaria_c" := by decide
      exact absurd rfl (this _ hmem)
  · intro r hr
    obtain ⟨grp, h1, h2, h3, h4⟩ := aggregate_row_metrics t g h r hr
    exact ⟨grp, h1, h2, h3, fun hb => h4 hb.1 hb.2⟩

set_option maxRecDepth 400000 in
unseal Rat.mul Rat.inv Rat.add Rat.sub in
/-- C8, witness: with both temperature columns the amplitude column exists;
with the minimum column missing it does not. -/
theorem c8_amplitude_and_rounding_witness :
    "amplitude_termica_diaria_c" ∈ c8Gold.cols ∧
    "amplitude_termica_diaria_c" ∉ c8GoldNoMin.cols := by
  constructor
  · exact (c8_amplitude_and_rounding c8Silver c8Gold (by decide)).1 ⟨by decide, by decide⟩
  · exact (c8_amplitude_and_rounding c8SilverNoMin c8GoldNoMin (by decide)).2.1
      (by
        rintro ⟨_, hmin⟩
        revert hmin
        decide)

